import Mathlib

/-!
# Verification of the centrifuge-python connection/subscription engine

Shallow embedding of `src/centrifuge/client.py` (the only source file of the
repository).  Pure control decisions become Lean functions; the stateful
client becomes explicit state passing over the structure `ClientM`; the
command/reply registry becomes `RegState`; the cooperative scheduling of the
reply barrier becomes a small-step interleaving relation `SStep`.

The modules `centrifuge/codes.py` and `centrifuge/utils.py` are not under
`src/`; the few facts needed from them (symbolic code names, the token-expiry
predicate) are modelled from the spec and marked as such in doc comments.
-/

/-- Model of `ClientState` (client.py 85-90). -/
inductive ClientState
  | disconnected
  | connecting
  | connected
  deriving DecidableEq, Repr

/-- Model of `SubscriptionState` (client.py 93-98). -/
inductive SubState
  | unsubscribed
  | subscribing
  | subscribed
  deriving DecidableEq, Repr

/-- Modelled from the spec: the module `centrifuge/codes.py` is not under
`src/`.  The numeric values of the named codes are not given by the spec, so
the named codes stay symbolic; numeric codes received from the server are
embedded through `DCode.server`. -/
inductive DCode
  | connectCalled
  | disconnectCalled
  | transportClosed
  | messageSizeLimit
  | noPing
  | unsubscribeError
  | unauthorized
  | subscribeCalled
  | unsubscribeCalled
  | server (n : Nat)
  deriving DecidableEq, Repr

/-- A disconnect/transition reason: either the canned message attached to a
symbolic code (`_code_message`, modelled symbolically since `utils.py` is not
under `src/`) or literal text received from the server. -/
inductive Reason
  | ofCode (c : DCode)
  | text (s : String)
  deriving DecidableEq, Repr

/-- Tags passed to `on_error` handlers (`_ErrorCode` in `codes.py`, modelled
from the spec since that module is not under `src/`). -/
inductive ErrTag
  | timeout
  | transportClosed
  | connectReplyError
  | clientConnectToken
  | clientRefreshToken
  | subscribeReplyError
  deriving DecidableEq, Repr

/-- Externally observable actions performed by the client code. -/
inductive Ev
  | poisonQueue
  | failPending (cmdId : Nat)
  | closeTransport
  | subToSubscribing (channel : String)
  | onDisconnected (code : DCode) (reason : Reason)
  | scheduleReconnect
  | onError (tag : ErrTag)
  | onErrorReply (tag : ErrTag) (code : Nat) (message : String) (temporary : Bool)
  | onConnecting (code : DCode)
  | onConnected
  | raisedInvalidState
  | onSubscribing (channel : String) (code : DCode)
  | onUnsubscribed (channel : String) (code : DCode)
  | registerSub (channel : String)
  | sendSubscribeCmd (channel : String)
  | sendUnsubscribeCmd (channel : String)
  deriving DecidableEq, Repr

/-- Resolution status of the one-shot `_connected_future`. -/
inductive FutStatus
  | unresolved
  | resolvedOk
  | resolvedErr (code : DCode) (reason : Reason)
  deriving DecidableEq, Repr

/-- The client-state fields of `Client` (client.py 114-172) that the claims
under verification read or write.  `connectedGen` counts how many times
`_connected_future` has been replaced by a fresh `asyncio.Future()`;
`queueGen` plays the same role for `_messages`. -/
structure ClientM where
  state : ClientState
  needReconnect : Bool
  pingTimer : Bool
  refreshTimer : Bool
  reconnectAttempts : Nat
  reconnectTimer : Bool
  queueGen : Nat
  pendingIds : List Nat
  connOpen : Bool
  connectedGen : Nat
  connectedFut : FutStatus
  subs : List (String × SubState)
  deriving DecidableEq, Repr

/-- The freshly constructed client (`Client.__init__`, client.py 139-172):
`DISCONNECTED`, `_need_reconnect = True`, no timers, empty registry, and an
unresolved `_connected_future`. -/
def clientInit : ClientM :=
  { state := ClientState.disconnected
    needReconnect := true
    pingTimer := false
    refreshTimer := false
    reconnectAttempts := 0
    reconnectTimer := false
    queueGen := 0
    pendingIds := []
    connOpen := false
    connectedGen := 0
    connectedFut := FutStatus.unresolved
    subs := [] }

/-- Steps 1-3 of `Client._disconnect` (client.py 946-962): cancel the ping and
refresh timers, `_clear_connecting_state` (attempts to 0, cancel the reconnect
timer), poison and replace the message queue, and clear `_need_reconnect`
when not reconnecting.  These run before the early return on
`DISCONNECTED`. -/
def Client.disconnectPrep (c : ClientM) (reconnect : Bool) : ClientM :=
  { c with
    pingTimer := false
    refreshTimer := false
    reconnectAttempts := 0
    reconnectTimer := false
    queueGen := c.queueGen + 1
    needReconnect := if reconnect then c.needReconnect else false }

/-- Steps 5-11 of `Client._disconnect` (client.py 967-997), reached only when
the state is not `DISCONNECTED`: fail all pending commands, refresh
`_connected_future` if it is resolved, either move to `CONNECTING` or resolve
the future with a disconnect error and move to `DISCONNECTED`, close the
transport, push every `SUBSCRIBED` subscription to `SUBSCRIBING`, emit
`on_disconnected`, and schedule a reconnect when reconnecting. -/
def Client.disconnectMain (c : ClientM) (code : DCode) (reason : Reason)
    (reconnect : Bool) : ClientM × List Ev :=
  let fails := c.pendingIds.map Ev.failPending
  let c1 := { c with pendingIds := [] }
  let c2 :=
    if c1.connectedFut = FutStatus.unresolved then c1
    else { c1 with
            connectedGen := c1.connectedGen + 1
            connectedFut := FutStatus.unresolved }
  let c3 :=
    if reconnect then { c2 with state := ClientState.connecting }
    else { c2 with
            connectedFut := FutStatus.resolvedErr code reason
            state := ClientState.disconnected }
  let closeEvs := if c3.connOpen then [Ev.closeTransport] else []
  let c4 := { c3 with connOpen := false }
  let subEvs :=
    (c4.subs.filter (fun p => p.2 = SubState.subscribed)).map
      (fun p => Ev.subToSubscribing p.1)
  let c5 := { c4 with
              subs := c4.subs.map (fun p =>
                if p.2 = SubState.subscribed then (p.1, SubState.subscribing) else p) }
  let tailEvs := if reconnect then [Ev.scheduleReconnect] else []
  (c5, Ev.poisonQueue ::
        (fails ++ closeEvs ++ subEvs ++ [Ev.onDisconnected code reason] ++ tailEvs))

/-- Models `Client._disconnect` (client.py 945-997) as one atomic step. -/
def Client.disconnectInternal (c : ClientM) (code : DCode) (reason : Reason)
    (reconnect : Bool) : ClientM × List Ev :=
  let c0 := Client.disconnectPrep c reconnect
  if c0.state = ClientState.disconnected then (c0, [Ev.poisonQueue])
  else Client.disconnectMain c0 code reason reconnect

/-- The close-code handling at the end of `Client._listen` (client.py
1151-1173): a falsy (`None` or `0`) websocket close code counts as `0` with an
empty reason; close code `1009` selects `MESSAGE_SIZE_LIMIT`; every other code
below `3000` keeps the default `TRANSPORT_CLOSED`; codes `>= 3000` are used
verbatim together with the server reason, and `reconnect` is turned off
exactly for codes in `[3500, 4000)` or `[4500, 5000)`.  Returns the
`(code, reason, reconnect)` triple passed to `_disconnect`. -/
def listenCloseParams (closeCode : Option Nat) (closeReason : String) :
    DCode × Reason × Bool :=
  let wsCode := closeCode.getD 0
  let wsReason := if wsCode = 0 then "" else closeReason
  if wsCode < 3000 then
    if wsCode = 1009 then
      (DCode.messageSizeLimit, Reason.ofCode DCode.messageSizeLimit, true)
    else
      (DCode.transportClosed, Reason.ofCode DCode.transportClosed, true)
  else
    (DCode.server wsCode, Reason.text wsReason,
      if (3500 ≤ wsCode ∧ wsCode < 4000) ∨ (4500 ≤ wsCode ∧ wsCode < 5000)
      then false else true)

/-- Models the `Client._listen` exit path (client.py 1174): perform the internal
disconnect with the parameters computed from the transport close. -/
def Client.listenClose (c : ClientM) (closeCode : Option Nat)
    (closeReason : String) : ClientM × List Ev :=
  let p := listenCloseParams closeCode closeReason
  Client.disconnectInternal c p.1 p.2.1 p.2.2

/-- Models `Client._process_disconnect` (client.py 1047-1051): a server-push
disconnect carries a numeric code and a reason; the client reconnects exactly
when the code is in `[3500, 4000)` or `[4500, 5000)`. -/
def Client.processDisconnect (c : ClientM) (code : Nat) (reason : String) :
    ClientM × List Ev :=
  let reconnect :=
    if (3500 ≤ code ∧ code < 4000) ∨ (4500 ≤ code ∧ code < 5000)
    then true else false
  Client.disconnectInternal c (DCode.server code) (Reason.text reason) reconnect

/-- Models `Client.connect` (client.py 407-419): a no-op when `CONNECTING` or
`CONNECTED`; otherwise move to `CONNECTING`, replace `_connected_future` with
a fresh unresolved one if it is resolved, and emit
`on_connecting(CONNECT_CALLED)`.  (The subsequent `_create_connection` is a
separate step.) -/
def Client.connect (c : ClientM) : ClientM × List Ev :=
  if c.state = ClientState.connecting ∨ c.state = ClientState.connected then (c, [])
  else
    let c1 := { c with state := ClientState.connecting }
    let c2 :=
      if c1.connectedFut = FutStatus.unresolved then c1
      else { c1 with
              connectedGen := c1.connectedGen + 1
              connectedFut := FutStatus.unresolved }
    (c2, [Ev.onConnecting DCode.connectCalled])

/-- The fields of a successful connect reply read by `_create_connection`
(client.py 364-378). -/
structure ConnectResult where
  pong : Bool
  ping : Nat
  expires : Bool
  ttl : Nat
  deriving DecidableEq, Repr

/-- The success branch of `Client._create_connection` (client.py 340,
363-398): guarded by `state == CONNECTING`; sets `CONNECTED`, arms the ping
and refresh timers, resolves `_connected_future` with `True` (`set_result` on
an already-resolved future would raise `InvalidStateError`, modelled by the
`raisedInvalidState` event), emits `on_connected`, clears the reconnect state,
and issues a subscribe command for every `SUBSCRIBING` subscription. -/
def Client.connectSuccess (c : ClientM) (res : ConnectResult) : ClientM × List Ev :=
  if c.state = ClientState.connecting then
    let c1 := { c with
                state := ClientState.connected
                pingTimer := if 0 < res.ping then true else c.pingTimer
                refreshTimer := if res.expires then true else c.refreshTimer }
    if c1.connectedFut = FutStatus.unresolved then
      let c2 := { c1 with
                  connectedFut := FutStatus.resolvedOk
                  reconnectAttempts := 0
                  reconnectTimer := false }
      (c2, Ev.onConnected ::
            (c2.subs.filter (fun p => p.2 = SubState.subscribing)).map
              (fun p => Ev.sendSubscribeCmd p.1))
    else (c1, [Ev.raisedInvalidState])
  else (c, [])

/-- The code sites that assign `Client.state` or touch `_connected_future`:
`connect()`, the success branch of `_create_connection`, `_disconnect`, plus
the transport opening (which touches neither). -/
inductive ClStep : ClientM → ClientM → Prop
  | connect {c : ClientM} : ClStep c (Client.connect c).1
  | connectSuccess {c : ClientM} (res : ConnectResult) :
      ClStep c (Client.connectSuccess c res).1
  | disconnectInternal {c : ClientM} (code : DCode) (reason : Reason)
      (reconnect : Bool) :
      ClStep c (Client.disconnectInternal c code reason reconnect).1
  | transportOpened {c : ClientM} : ClStep c { c with connOpen := true }

/-- Client states reachable from the freshly constructed client. -/
inductive ClReach : ClientM → Prop
  | init : ClReach clientInit
  | step {c c' : ClientM} : ClReach c → ClStep c c' → ClReach c'

/-- The connected-future/state relationship the code actually maintains:
unresolved while `CONNECTING`, a success result exactly while `CONNECTED`,
and never a success result while `DISCONNECTED` (after a terminal disconnect
it holds a `ClientDisconnectedError`; on a fresh client it is unresolved). -/
def clientFutInv (c : ClientM) : Prop :=
  (c.state = ClientState.connecting ∧ c.connectedFut = FutStatus.unresolved) ∨
  (c.state = ClientState.connected ∧ c.connectedFut = FutStatus.resolvedOk) ∨
  (c.state = ClientState.disconnected ∧ c.connectedFut ≠ FutStatus.resolvedOk)

theorem clientFutInv_init : clientFutInv clientInit := by
  right; right; exact ⟨rfl, by decide⟩

theorem disconnectPrep_state (c : ClientM) (b : Bool) :
    (Client.disconnectPrep c b).state = c.state := rfl

theorem disconnectPrep_fut (c : ClientM) (b : Bool) :
    (Client.disconnectPrep c b).connectedFut = c.connectedFut := rfl

theorem disconnectPrep_gen (c : ClientM) (b : Bool) :
    (Client.disconnectPrep c b).connectedGen = c.connectedGen := rfl

/-- Effect of `_disconnect` on the state and the connected future, by cases. -/
theorem disconnectInternal_cases (c : ClientM) (code : DCode) (reason : Reason)
    (reconnect : Bool) :
    (c.state = ClientState.disconnected ∧
      (Client.disconnectInternal c code reason reconnect).1.state
          = ClientState.disconnected ∧
      (Client.disconnectInternal c code reason reconnect).1.connectedFut
          = c.connectedFut ∧
      (Client.disconnectInternal c code reason reconnect).1.connectedGen
          = c.connectedGen) ∨
    (c.state ≠ ClientState.disconnected ∧ reconnect = true ∧
      (Client.disconnectInternal c code reason reconnect).1.state
          = ClientState.connecting ∧
      (Client.disconnectInternal c code reason reconnect).1.connectedFut
          = FutStatus.unresolved ∧
      (Client.disconnectInternal c code reason reconnect).1.connectedGen
          = (if c.connectedFut = FutStatus.unresolved then c.connectedGen
             else c.connectedGen + 1)) ∨
    (c.state ≠ ClientState.disconnected ∧ reconnect = false ∧
      (Client.disconnectInternal c code reason reconnect).1.state
          = ClientState.disconnected ∧
      (Client.disconnectInternal c code reason reconnect).1.connectedFut
          = FutStatus.resolvedErr code reason ∧
      (Client.disconnectInternal c code reason reconnect).1.connectedGen
          = (if c.connectedFut = FutStatus.unresolved then c.connectedGen
             else c.connectedGen + 1)) := by
  by_cases hd : c.state = ClientState.disconnected
  · left
    refine ⟨hd, ?_, ?_, ?_⟩ <;>
      simp [Client.disconnectInternal, Client.disconnectPrep, hd]
  · have hd' : (Client.disconnectPrep c reconnect).state ≠ ClientState.disconnected := by
      simpa [disconnectPrep_state] using hd
    cases reconnect with
    | false =>
      right; right
      refine ⟨hd, rfl, ?_, ?_, ?_⟩ <;>
        by_cases hf : c.connectedFut = FutStatus.unresolved <;>
          simp [Client.disconnectInternal, Client.disconnectPrep,
                Client.disconnectMain, hd, hf]
    | true =>
      right; left
      refine ⟨hd, rfl, ?_, ?_, ?_⟩ <;>
        by_cases hf : c.connectedFut = FutStatus.unresolved <;>
          simp [Client.disconnectInternal, Client.disconnectPrep,
                Client.disconnectMain, hd, hf]

/-- The future/state invariant is preserved by every modelled step. -/
theorem clientFutInv_step {c c' : ClientM} (h : clientFutInv c)
    (hs : ClStep c c') : clientFutInv c' := by
  cases hs with
  | connect =>
    by_cases hg : c.state = ClientState.connecting ∨ c.state = ClientState.connected
    · simpa [Client.connect, hg] using h
    · by_cases hf : c.connectedFut = FutStatus.unresolved <;>
        · left
          constructor <;> simp [Client.connect, hg, hf]
  | connectSuccess res =>
    by_cases hg : c.state = ClientState.connecting
    · have hf : c.connectedFut = FutStatus.unresolved := by
        rcases h with ⟨_, hf⟩ | ⟨hs, _⟩ | ⟨hs, _⟩
        · exact hf
        · rw [hg] at hs; cases hs
        · rw [hg] at hs; cases hs
      right; left
      constructor <;> simp [Client.connectSuccess, hg, hf]
    · simpa [Client.connectSuccess, hg] using h
  | disconnectInternal code reason reconnect =>
    rcases disconnectInternal_cases c code reason reconnect with
      ⟨hd, hs, hf, _⟩ | ⟨_, _, hs, hf, _⟩ | ⟨_, _, hs, hf, _⟩
    · right; right
      refine ⟨hs, ?_⟩
      rw [hf]
      rcases h with ⟨h1, _⟩ | ⟨h1, _⟩ | ⟨_, h2⟩
      · rw [hd] at h1; cases h1
      · rw [hd] at h1; cases h1
      · exact h2
    · left; exact ⟨hs, hf⟩
    · right; right
      refine ⟨hs, ?_⟩
      rw [hf]; intro hx; cases hx
  | transportOpened =>
    rcases h with ⟨h1, h2⟩ | ⟨h1, h2⟩ | ⟨h1, h2⟩
    · left; exact ⟨h1, h2⟩
    · right; left; exact ⟨h1, h2⟩
    · right; right; exact ⟨h1, h2⟩

/-- The future/state invariant holds in every reachable client state. -/
theorem clientFutInv_reach {c : ClientM} (h : ClReach c) : clientFutInv c := by
  induction h with
  | init => exact clientFutInv_init
  | step _ hs ih => exact clientFutInv_step ih hs

/-- The call `_disconnect` with `reconnect=False` always leaves the client
`DISCONNECTED` with `_need_reconnect = False`, whatever the starting state. -/
theorem disconnectInternal_terminal (c : ClientM) (code : DCode) (reason : Reason) :
    (Client.disconnectInternal c code reason false).1.state = ClientState.disconnected ∧
    (Client.disconnectInternal c code reason false).1.needReconnect = false := by
  constructor
  · rcases disconnectInternal_cases c code reason false with
      ⟨_, hs, _, _⟩ | ⟨_, hb, _⟩ | ⟨_, _, hs, _, _⟩
    · exact hs
    · cases hb
    · exact hs
  · by_cases hd : c.state = ClientState.disconnected <;>
      by_cases hf : c.connectedFut = FutStatus.unresolved <;>
        simp [Client.disconnectInternal, Client.disconnectPrep,
              Client.disconnectMain, hd, hf]

/-- When the client is not already `DISCONNECTED`, `_disconnect` emits
`on_disconnected` with exactly the code and reason it was given. -/
theorem disconnectInternal_emits (c : ClientM) (code : DCode) (reason : Reason)
    (reconnect : Bool) (h : c.state ≠ ClientState.disconnected) :
    Ev.onDisconnected code reason ∈ (Client.disconnectInternal c code reason reconnect).2 := by
  simp [Client.disconnectInternal, Client.disconnectPrep, h, Client.disconnectMain]

/-- When the client is not already `DISCONNECTED`, `_disconnect` with
`reconnect=True` moves it to `CONNECTING` and schedules a reconnect. -/
theorem disconnectInternal_reconnecting (c : ClientM) (code : DCode) (reason : Reason)
    (h : c.state ≠ ClientState.disconnected) :
    (Client.disconnectInternal c code reason true).1.state = ClientState.connecting ∧
    Ev.scheduleReconnect ∈ (Client.disconnectInternal c code reason true).2 := by
  constructor
  · rcases disconnectInternal_cases c code reason true with
      ⟨hd, _⟩ | ⟨_, _, hs, _⟩ | ⟨_, hb, _⟩
    · exact absurd hd h
    · exact hs
    · cases hb
  · simp [Client.disconnectInternal, Client.disconnectPrep, h, Client.disconnectMain]

/-! ### Claim C1: transport-close handling in the receive loop -/

/-- C1 counterexample: the claim says the receive loop applies the same
reconnect-range rule as server-push disconnects (reconnect iff the close code
is in `[3500, 4000) ∪ [4500, 5000)`).  At websocket close code 3500 the code
of `_listen` (client.py 1171-1172) does the opposite: it clears `reconnect`
exactly on that range, so the claimed equivalence fails. -/
theorem c1_transport_close_counterexample :
    ¬ (((listenCloseParams (some 3500) "srv").2.2 = true) ↔
        ((3500 ≤ 3500 ∧ 3500 < 4000) ∨ (4500 ≤ 3500 ∧ 3500 < 5000))) := by
  decide

/-- C1 (amended): for every transport close observed by the receive loop with
websocket close code `>= 3000`, the client performs an internal disconnect
using the server's close code and reason, and it reconnects if and only if
the code is NOT in `[3500, 4000)` or `[4500, 5000)` (the inverse of the
server-push disconnect range rule); in particular a close code in those
ranges is terminal.  For close code 1009 it uses the `MESSAGE_SIZE_LIMIT`
code, and for every other close code below 3000 it uses `TRANSPORT_CLOSED`
with `reconnect=True`. -/
theorem c1_transport_close_amended (closeCode : Option Nat) (closeReason : String)
    (c : ClientM) :
    (Client.listenClose c closeCode closeReason =
      Client.disconnectInternal c (listenCloseParams closeCode closeReason).1
        (listenCloseParams closeCode closeReason).2.1
        (listenCloseParams closeCode closeReason).2.2) ∧
    (3000 ≤ closeCode.getD 0 →
      listenCloseParams closeCode closeReason =
        (DCode.server (closeCode.getD 0), Reason.text closeReason,
          if (3500 ≤ closeCode.getD 0 ∧ closeCode.getD 0 < 4000) ∨
             (4500 ≤ closeCode.getD 0 ∧ closeCode.getD 0 < 5000)
          then false else true)) ∧
    (closeCode.getD 0 = 1009 →
      listenCloseParams closeCode closeReason =
        (DCode.messageSizeLimit, Reason.ofCode DCode.messageSizeLimit, true)) ∧
    (closeCode.getD 0 < 3000 → closeCode.getD 0 ≠ 1009 →
      listenCloseParams closeCode closeReason =
        (DCode.transportClosed, Reason.ofCode DCode.transportClosed, true)) ∧
    ((3500 ≤ closeCode.getD 0 ∧ closeCode.getD 0 < 4000) ∨
     (4500 ≤ closeCode.getD 0 ∧ closeCode.getD 0 < 5000) →
      (Client.listenClose c closeCode closeReason).1.state = ClientState.disconnected ∧
      (Client.listenClose c closeCode closeReason).1.needReconnect = false) := by
  refine ⟨rfl, ?_, ?_, ?_, ?_⟩
  · intro h3000
    have h0 : ¬ closeCode.getD 0 = 0 := by omega
    have hlt : ¬ closeCode.getD 0 < 3000 := by omega
    simp [listenCloseParams, h0, hlt]
  · intro h1009
    simp [listenCloseParams, h1009]
  · intro hlt hne
    have h0 : closeCode.getD 0 < 3000 := hlt
    simp [listenCloseParams, h0, hne]
  · intro hrange
    have hlt : ¬ closeCode.getD 0 < 3000 := by omega
    have hfalse : (listenCloseParams closeCode closeReason).2.2 = false := by
      simp [listenCloseParams, hlt, hrange]
    have : Client.listenClose c closeCode closeReason =
        Client.disconnectInternal c (listenCloseParams closeCode closeReason).1
          (listenCloseParams closeCode closeReason).2.1 false := by
      rw [← hfalse]; rfl
    rw [this]
    exact disconnectInternal_terminal _ _ _

/-- C1 witness: at close code 3600 (inside the claimed reconnect range) the
client in fact disconnects terminally; at 1009 it uses `MESSAGE_SIZE_LIMIT`. -/
theorem c1_transport_close_amended_witness :
    (Client.listenClose clientInit (some 3600) "gone").1.state
        = ClientState.disconnected ∧
    (Client.listenClose clientInit (some 3600) "gone").1.needReconnect = false ∧
    listenCloseParams (some 1009) "big" =
      (DCode.messageSizeLimit, Reason.ofCode DCode.messageSizeLimit, true) := by
  have h := c1_transport_close_amended (some 3600) "gone" clientInit
  have h9 := c1_transport_close_amended (some 1009) "big" clientInit
  exact ⟨(h.2.2.2.2 (by decide)).1, (h.2.2.2.2 (by decide)).2,
         h9.2.2.1 (by decide)⟩

/-! ### Claim C2: the connected-future invariant -/

/-- First step of the C2 trace: `connect()` on a fresh client. -/
def c2TraceA : ClientM := (Client.connect clientInit).1

/-- Second step: the connect reply succeeds. -/
def c2TraceB : ClientM :=
  (Client.connectSuccess c2TraceA { pong := true, ping := 25, expires := false, ttl := 0 }).1

/-- Third step: the user calls `disconnect()` (`DISCONNECT_CALLED`,
`reconnect=False`, client.py 421-427). -/
def c2TraceC : ClientM :=
  (Client.disconnectInternal c2TraceB DCode.disconnectCalled
    (Reason.ofCode DCode.disconnectCalled) false).1

theorem c2Trace_reachB : ClReach c2TraceB :=
  ClReach.step (ClReach.step ClReach.init ClStep.connect)
    (ClStep.connectSuccess { pong := true, ping := 25, expires := false, ttl := 0 })

/-- C2 counterexample: after connect, connect-success and a user
`disconnect()`, the client is `DISCONNECTED` yet `_connected_future` is
resolved (with a `ClientDisconnectedError`, client.py 975-977), refuting the
claimed invariant that the future is unresolved whenever the state is not
`CONNECTED`. -/
theorem c2_connected_future_counterexample :
    ClReach c2TraceC ∧ c2TraceC.state ≠ ClientState.connected ∧
      c2TraceC.connectedFut ≠ FutStatus.unresolved := by
  refine ⟨?_, by decide, by decide⟩
  exact ClReach.step c2Trace_reachB
    (ClStep.disconnectInternal DCode.disconnectCalled
      (Reason.ofCode DCode.disconnectCalled) false)

/-- C2 (amended): in every reachable client state the future is unresolved
while `CONNECTING`, holds a success result exactly while `CONNECTED`, and
never holds a success result while `DISCONNECTED` (after a terminal
disconnect it is resolved with a disconnect error); and every transition out
of `CONNECTED` replaces the future with a fresh one — unresolved when the
transition reconnects, resolved with the disconnect error when terminal. -/
theorem c2_connected_future_amended (c c' : ClientM) (hr : ClReach c)
    (hs : ClStep c c') (hc : c.state = ClientState.connected)
    (hnc : c'.state ≠ ClientState.connected) :
    clientFutInv c ∧ clientFutInv c' ∧ c.connectedGen < c'.connectedGen ∧
    (c'.state = ClientState.connecting → c'.connectedFut = FutStatus.unresolved) ∧
    (c'.state = ClientState.disconnected →
      c'.connectedFut ≠ FutStatus.unresolved ∧
      c'.connectedFut ≠ FutStatus.resolvedOk) := by
  have hinv := clientFutInv_reach hr
  have hinv' := clientFutInv_step hinv hs
  have hfut : c.connectedFut = FutStatus.resolvedOk := by
    rcases hinv with ⟨h1, _⟩ | ⟨_, h2⟩ | ⟨h1, _⟩
    · rw [hc] at h1; cases h1
    · exact h2
    · rw [hc] at h1; cases h1
  refine ⟨hinv, hinv', ?_⟩
  cases hs with
  | connect =>
    exfalso
    apply hnc
    have hg : c.state = ClientState.connecting ∨ c.state = ClientState.connected :=
      Or.inr hc
    simp [Client.connect, hg, hc]
  | connectSuccess res =>
    exfalso
    apply hnc
    have hg : ¬ c.state = ClientState.connecting := by rw [hc]; intro h; cases h
    simp [Client.connectSuccess, hg, hc]
  | transportOpened =>
    exfalso; exact hnc hc
  | disconnectInternal code reason reconnect =>
    rcases disconnectInternal_cases c code reason reconnect with
      ⟨hd, _⟩ | ⟨_, _, hs1, hf1, hg1⟩ | ⟨_, _, hs1, hf1, hg1⟩
    · rw [hc] at hd; cases hd
    · refine ⟨?_, fun _ => hf1, ?_⟩
      · rw [hg1, if_neg (by rw [hfut]; intro h; cases h)]; omega
      · intro hdisc; rw [hs1] at hdisc; cases hdisc
    · refine ⟨?_, ?_, ?_⟩
      · rw [hg1, if_neg (by rw [hfut]; intro h; cases h)]; omega
      · intro hconn; rw [hs1] at hconn; cases hconn
      · intro _; rw [hf1]; exact ⟨(fun h => nomatch h), (fun h => nomatch h)⟩

/-- C2 witness: the amended facts evaluated on the concrete trace
connect → connected → user disconnect. -/
theorem c2_connected_future_amended_witness :
    clientFutInv c2TraceB ∧ clientFutInv c2TraceC ∧
      c2TraceB.connectedGen < c2TraceC.connectedGen ∧
      c2TraceC.connectedFut ≠ FutStatus.unresolved ∧
      c2TraceC.connectedFut ≠ FutStatus.resolvedOk := by
  have h := c2_connected_future_amended c2TraceB c2TraceC c2Trace_reachB
    (ClStep.disconnectInternal DCode.disconnectCalled
      (Reason.ofCode DCode.disconnectCalled) false)
    (by decide) (by decide)
  exact ⟨h.1, h.2.1, h.2.2.1, (h.2.2.2.2 (by decide)).1, (h.2.2.2.2 (by decide)).2⟩

/-! ### Claim C4: server-push disconnect code policy -/

/-- C4: a server-initiated disconnect push with code `c` and reason `r` makes
the client perform an internal disconnect with exactly that code and reason
(`on_disconnected` receives them verbatim), with the reconnect flag true if
and only if `c ∈ [3500, 4000) ∪ [4500, 5000)`; outside those ranges the
disconnect is terminal (`DISCONNECTED`, `_need_reconnect = False`), inside
them the client moves to `CONNECTING` and schedules a reconnect. -/
theorem c4_server_disconnect_policy (c : ClientM) (code : Nat) (reason : String) :
    (Client.processDisconnect c code reason =
      Client.disconnectInternal c (DCode.server code) (Reason.text reason)
        (if (3500 ≤ code ∧ code < 4000) ∨ (4500 ≤ code ∧ code < 5000)
         then true else false)) ∧
    (((if (3500 ≤ code ∧ code < 4000) ∨ (4500 ≤ code ∧ code < 5000)
       then true else false) = true) ↔
      ((3500 ≤ code ∧ code < 4000) ∨ (4500 ≤ code ∧ code < 5000))) ∧
    (¬ ((3500 ≤ code ∧ code < 4000) ∨ (4500 ≤ code ∧ code < 5000)) →
      (Client.processDisconnect c code reason).1.state = ClientState.disconnected ∧
      (Client.processDisconnect c code reason).1.needReconnect = false) ∧
    (c.state ≠ ClientState.disconnected →
      Ev.onDisconnected (DCode.server code) (Reason.text reason)
        ∈ (Client.processDisconnect c code reason).2) ∧
    ((3500 ≤ code ∧ code < 4000) ∨ (4500 ≤ code ∧ code < 5000) →
      c.state ≠ ClientState.disconnected →
      (Client.processDisconnect c code reason).1.state = ClientState.connecting ∧
      Ev.scheduleReconnect ∈ (Client.processDisconnect c code reason).2) := by
  refine ⟨rfl, ?_, ?_, ?_, ?_⟩
  · constructor
    · intro h
      by_contra hn
      rw [if_neg hn] at h
      cases h
    · intro h; rw [if_pos h]
  · intro hn
    have : Client.processDisconnect c code reason =
        Client.disconnectInternal c (DCode.server code) (Reason.text reason) false := by
      unfold Client.processDisconnect
      rw [if_neg hn]
    rw [this]
    exact disconnectInternal_terminal _ _ _
  · intro hne
    exact disconnectInternal_emits _ _ _ _ hne
  · intro hr hne
    have : Client.processDisconnect c code reason =
        Client.disconnectInternal c (DCode.server code) (Reason.text reason) true := by
      unfold Client.processDisconnect
      rw [if_pos hr]
    rw [this]
    exact disconnectInternal_reconnecting _ _ _ hne

/-- C4 witness: code 3001 (terminal) and code 3600 (reconnectable) evaluated
on the connected client of the C2 trace. -/
theorem c4_server_disconnect_policy_witness :
    (Client.processDisconnect c2TraceB 3001 "bad").1.state = ClientState.disconnected ∧
    (Client.processDisconnect c2TraceB 3001 "bad").1.needReconnect = false ∧
    Ev.onDisconnected (DCode.server 3001) (Reason.text "bad")
      ∈ (Client.processDisconnect c2TraceB 3001 "bad").2 ∧
    (Client.processDisconnect c2TraceB 3600 "later").1.state = ClientState.connecting ∧
    Ev.scheduleReconnect ∈ (Client.processDisconnect c2TraceB 3600 "later").2 := by
  have h1 := c4_server_disconnect_policy c2TraceB 3001 "bad"
  have h2 := c4_server_disconnect_policy c2TraceB 3600 "later"
  exact ⟨(h1.2.2.1 (by decide)).1, (h1.2.2.1 (by decide)).2,
         h1.2.2.2.1 (by decide),
         (h2.2.2.2.2 (by decide) (by decide)).1,
         (h2.2.2.2.2 (by decide) (by decide)).2⟩

/-! ### The command/reply registry (`Client._futures`, client.py 101-105,
678-749, 935-943) -/

/-- The two exception kinds `_future_error` is invoked with: the timeout
callback raises `OperationTimeoutError` (client.py 684-686, 711-713) and
`_clear_outgoing_futures` raises
`ClientDisconnectedError("command {cmd_id} canceled due to disconnect")`
(client.py 939-943). -/
inductive Exc
  | operationTimeout
  | clientDisconnected (cmdId : Nat)
  deriving DecidableEq, Repr

/-- The value a command's reply future is resolved with (reply payloads are
opaque to the registry and represented by a `Nat`). -/
inductive FutVal
  | reply (payload : Nat)
  | exc (e : Exc)
  deriving DecidableEq, Repr

/-- Returns `some j` when the value is the client-disconnected error for command `j`. -/
def FutVal.disconnectTag : FutVal → Option Nat
  | FutVal.exc (Exc.clientDisconnected j) => some j
  | _ => none

/-- The registry: `nextId` is the `_id` counter (client.py 263-265);
`pending` holds one `(cmd_id, has-done-barrier, has-timeout-timer)` entry per
`_Callback` in `_futures`; `futures` records the resolution of each command's
future (futures outlive their registry entry because callers hold them);
`doneFired` lists barrier futures set by `_future_error`; `timers` tracks each
created timeout timer (`some true` = armed, `some false` = cancelled). -/
structure RegState where
  nextId : Nat
  pending : List (Nat × Bool × Bool)
  futures : Nat → Option FutVal
  doneFired : List Nat
  timers : Nat → Option Bool

/-- Models `self._futures.get(cmd_id)` restricted to the fields the model keeps. -/
def RegState.lookupPending (r : RegState) (id : Nat) : Option (Bool × Bool) :=
  (r.pending.find? (fun p => p.1 == id)).map (fun p => p.2)

/-- Models `Client._register_future` (client.py 678-696): fresh future, fresh
command id, a timeout timer when `timeout` is truthy, no barrier. -/
def RegState.registerFuture (r : RegState) (withTimer : Bool) : RegState × Nat :=
  let id := r.nextId + 1
  ({ r with
     nextId := id
     pending := (id, false, withTimer) :: r.pending
     timers :=
       if withTimer then (fun x => if x = id then some true else r.timers x)
       else r.timers },
   id)

/-- Models `Client._register_future_with_done` (client.py 698-728): as
`_register_future` but with a "done" barrier. -/
def RegState.registerFutureWithDone (r : RegState) (withTimer : Bool) :
    RegState × Nat :=
  let id := r.nextId + 1
  ({ r with
     nextId := id
     pending := (id, true, withTimer) :: r.pending
     timers :=
       if withTimer then (fun x => if x = id then some true else r.timers x)
       else r.timers },
   id)

/-- Models `Client._future_error` (client.py 730-737): when the command is still
pending, set the exception, set the done barrier if present, and delete the
record.  The timeout timer is NOT cancelled. -/
def RegState.futureError (r : RegState) (id : Nat) (e : Exc) : RegState :=
  match r.lookupPending id with
  | none => r
  | some dt =>
    { r with
      futures := fun x => if x = id then some (FutVal.exc e) else r.futures x
      doneFired := if dt.1 then id :: r.doneFired else r.doneFired
      pending := r.pending.filter (fun p => p.1 != id) }

/-- Models `Client._future_success` (client.py 739-749): when the command is still
pending, set the reply, delete the record, cancel the timeout timer, and
return whether the caller must await the done barrier. -/
def RegState.futureSuccess (r : RegState) (id : Nat) (payload : Nat) :
    RegState × Bool :=
  match r.lookupPending id with
  | none => (r, false)
  | some dt =>
    ({ r with
       futures := fun x => if x = id then some (FutVal.reply payload) else r.futures x
       pending := r.pending.filter (fun p => p.1 != id)
       timers :=
         if dt.2 then (fun x => if x = id then some false else r.timers x)
         else r.timers },
     dt.1)

/-- The timeout callback `cb` (client.py 684-686, 711-713): it fires only if
the captured future is not yet done. -/
def RegState.timerFire (r : RegState) (id : Nat) : RegState :=
  if (r.futures id).isSome then r else r.futureError id Exc.operationTimeout

/-- Helper for `_clear_outgoing_futures`: fail each of the given command ids
with its client-disconnected error, in order. -/
def RegState.foldErr (r : RegState) (ids : List Nat) : RegState :=
  ids.foldl (fun acc id => acc.futureError id (Exc.clientDisconnected id)) r

/-- Models `Client._clear_outgoing_futures` (client.py 935-943): snapshot the pending
command ids, then `_future_error` each with `ClientDisconnectedError`. -/
def RegState.clearOutgoing (r : RegState) : RegState :=
  r.foldErr (r.pending.map (fun p => p.1))

/-- The registry operations as they can occur in the client: registration
(`_register_future`/`_register_future_with_done` through a fresh command id),
reply delivery (`_process_reply` → `_future_success`), a timeout timer firing,
and `_clear_outgoing_futures` from `_disconnect`. -/
inductive ROp
  | register (withDone withTimer : Bool)
  | success (id payload : Nat)
  | timerFire (id : Nat)
  | clearAll
  deriving DecidableEq, Repr

def RegState.applyOp (r : RegState) : ROp → RegState
  | ROp.register d t =>
      if d then (r.registerFutureWithDone t).1 else (r.registerFuture t).1
  | ROp.success id payload => (r.futureSuccess id payload).1
  | ROp.timerFire id => r.timerFire id
  | ROp.clearAll => r.clearOutgoing

def RegState.runOps (r : RegState) (ops : List ROp) : RegState :=
  ops.foldl RegState.applyOp r

/-- The registry of a fresh client: `_id = 0`, no pending commands. -/
def regInit : RegState :=
  { nextId := 0
    pending := []
    futures := fun _ => none
    doneFired := []
    timers := fun _ => none }

/-- Registry well-formedness: pending commands have unresolved futures and
in-range ids, ids beyond the counter are untouched, pending ids are unique,
and a client-disconnected error always names the command it resolved. -/
def RegWF (r : RegState) : Prop :=
  (∀ p ∈ r.pending, r.futures p.1 = none ∧ p.1 ≤ r.nextId) ∧
  (∀ id, r.nextId < id → r.futures id = none) ∧
  (r.pending.map (fun p => p.1)).Nodup ∧
  (∀ id j, r.futures id = some (FutVal.exc (Exc.clientDisconnected j)) → j = id)

theorem regInit_wf : RegWF regInit := by
  refine ⟨?_, ?_, ?_, ?_⟩
  · intro p hp; simp [regInit] at hp
  · intro id _; rfl
  · simp [regInit]
  · intro id j h; simp [regInit] at h

theorem lookupPending_mem {r : RegState} {id : Nat} {dt : Bool × Bool}
    (h : r.lookupPending id = some dt) : (id, dt) ∈ r.pending := by
  unfold RegState.lookupPending at h
  cases hfind : r.pending.find? (fun p => p.1 == id) with
  | none => rw [hfind] at h; cases h
  | some p =>
    rw [hfind] at h
    have hmem := List.mem_of_find?_eq_some hfind
    have hpred := List.find?_some hfind
    have h1 : p.1 = id := by simpa using hpred
    have h2 : p.2 = dt := by
      simpa using h
    have : p = (id, dt) := by
      cases p with
      | mk a b => simp at h1 h2; rw [h1, h2]
    rw [← this]; exact hmem

theorem lookupPending_none {r : RegState} {id : Nat}
    (h : ∀ p ∈ r.pending, p.1 ≠ id) : r.lookupPending id = none := by
  unfold RegState.lookupPending
  rw [List.find?_eq_none.2]
  · rfl
  · intro p hp
    simpa using h p hp

theorem mem_filter_ne {l : List (Nat × Bool × Bool)} {q : Nat × Bool × Bool}
    {id : Nat} (h : q ∈ l.filter (fun p => p.1 != id)) : q ∈ l ∧ q.1 ≠ id := by
  have := List.mem_filter.1 h
  exact ⟨this.1, by simpa using this.2⟩

theorem futureError_wf {r : RegState} (hwf : RegWF r) (id : Nat) (e : Exc)
    (he : ∀ j, e = Exc.clientDisconnected j → j = id) :
    RegWF (r.futureError id e) := by
  obtain ⟨hw1, hw2, hw3, hw4⟩ := hwf
  cases hlk : r.lookupPending id with
  | none =>
    have hr : r.futureError id e = r := by
      simp [RegState.futureError, hlk]
    rw [hr]
    exact ⟨hw1, hw2, hw3, hw4⟩
  | some dt =>
    have hmem : (id, dt) ∈ r.pending := lookupPending_mem hlk
    have hid : id ≤ r.nextId := (hw1 _ hmem).2
    refine ⟨?_, ?_, ?_, ?_⟩
    · intro p hp
      simp only [RegState.futureError, hlk] at hp ⊢
      obtain ⟨hpl, hpne⟩ := mem_filter_ne hp
      refine ⟨?_, (hw1 p hpl).2⟩
      simp only [if_neg hpne]
      exact (hw1 p hpl).1
    · intro idx hidx
      simp only [RegState.futureError, hlk]
      have : idx ≠ id := by
        simp only [RegState.futureError, hlk] at hidx
        omega
      simp only [if_neg this]
      apply hw2
      simpa [RegState.futureError, hlk] using hidx
    · simp only [RegState.futureError, hlk]
      exact hw3.sublist (List.Sublist.map _ (List.filter_sublist _))
    · intro idx j hj
      simp only [RegState.futureError, hlk] at hj
      by_cases hxi : idx = id
      · rw [if_pos hxi] at hj
        have : FutVal.exc e = FutVal.exc (Exc.clientDisconnected j) := by
          injection hj
        have : e = Exc.clientDisconnected j := by injection this
        rw [hxi]
        exact he j this
      · rw [if_neg hxi] at hj
        exact hw4 idx j hj

theorem futureSuccess_wf {r : RegState} (hwf : RegWF r) (id payload : Nat) :
    RegWF (r.futureSuccess id payload).1 := by
  obtain ⟨hw1, hw2, hw3, hw4⟩ := hwf
  cases hlk : r.lookupPending id with
  | none => simp only [RegState.futureSuccess, hlk]; exact ⟨hw1, hw2, hw3, hw4⟩
  | some dt =>
    refine ⟨?_, ?_, ?_, ?_⟩
    · intro p hp
      simp only [RegState.futureSuccess, hlk] at hp ⊢
      obtain ⟨hpl, hpne⟩ := mem_filter_ne hp
      refine ⟨?_, (hw1 p hpl).2⟩
      simp only [if_neg hpne]
      exact (hw1 p hpl).1
    · intro idx hidx
      simp only [RegState.futureSuccess, hlk] at hidx ⊢
      have hmem : (id, dt) ∈ r.pending := lookupPending_mem hlk
      have : idx ≠ id := by
        have := (hw1 _ hmem).2
        omega
      simp only [if_neg this]
      exact hw2 idx hidx
    · simp only [RegState.futureSuccess, hlk]
      exact hw3.sublist (List.Sublist.map _ (List.filter_sublist _))
    · intro idx j hj
      simp only [RegState.futureSuccess, hlk] at hj
      by_cases hxi : idx = id
      · rw [if_pos hxi] at hj
        exact absurd hj (by simp)
      · rw [if_neg hxi] at hj
        exact hw4 idx j hj

theorem registerFuture_wf {r : RegState} (hwf : RegWF r) (t : Bool) :
    RegWF (r.registerFuture t).1 := by
  obtain ⟨hw1, hw2, hw3, hw4⟩ := hwf
  refine ⟨?_, ?_, ?_, ?_⟩
  · intro p hp
    simp only [RegState.registerFuture, List.mem_cons] at hp
    rcases hp with hp | hp
    · subst hp
      exact ⟨hw2 _ (Nat.lt_succ_self _), Nat.le_refl _⟩
    · exact ⟨(hw1 p hp).1, Nat.le_succ_of_le (hw1 p hp).2⟩
  · intro idx hidx
    simp only [RegState.registerFuture] at hidx ⊢
    exact hw2 idx (by omega)
  · simp only [RegState.registerFuture, List.map_cons]
    refine List.Nodup.cons ?_ hw3
    intro hmem
    obtain ⟨p, hp, hp1⟩ := List.mem_map.1 hmem
    have := (hw1 p hp).2
    omega
  · intro idx j hj
    exact hw4 idx j hj

theorem registerFutureWithDone_wf {r : RegState} (hwf : RegWF r) (t : Bool) :
    RegWF (r.registerFutureWithDone t).1 := by
  obtain ⟨hw1, hw2, hw3, hw4⟩ := hwf
  refine ⟨?_, ?_, ?_, ?_⟩
  · intro p hp
    simp only [RegState.registerFutureWithDone, List.mem_cons] at hp
    rcases hp with hp | hp
    · subst hp
      exact ⟨hw2 _ (Nat.lt_succ_self _), Nat.le_refl _⟩
    · exact ⟨(hw1 p hp).1, Nat.le_succ_of_le (hw1 p hp).2⟩
  · intro idx hidx
    simp only [RegState.registerFutureWithDone] at hidx ⊢
    exact hw2 idx (by omega)
  · simp only [RegState.registerFutureWithDone, List.map_cons]
    refine List.Nodup.cons ?_ hw3
    intro hmem
    obtain ⟨p, hp, hp1⟩ := List.mem_map.1 hmem
    have := (hw1 p hp).2
    omega
  · intro idx j hj
    exact hw4 idx j hj

theorem timerFire_wf {r : RegState} (hwf : RegWF r) (id : Nat) :
    RegWF (r.timerFire id) := by
  unfold RegState.timerFire
  by_cases h : (r.futures id).isSome
  · rw [if_pos h]; exact hwf
  · rw [if_neg h]
    exact futureError_wf hwf id Exc.operationTimeout (fun j hj => by cases hj)

/-- A resolved future stays resolved with the same value through
`_future_error` (resolution functions only touch still-pending commands). -/
theorem futureError_preserves {r : RegState} (hwf : RegWF r) {id : Nat}
    {v : FutVal} (h : r.futures id = some v) (id' : Nat) (e : Exc) :
    (r.futureError id' e).futures id = some v := by
  cases hlk : r.lookupPending id' with
  | none => simpa [RegState.futureError, hlk] using h
  | some dt =>
    have hmem : (id', dt) ∈ r.pending := lookupPending_mem hlk
    have hne : id ≠ id' := by
      intro heq
      have := (hwf.1 _ hmem).1
      rw [← heq, h] at this
      cases this
    simp only [RegState.futureError, hlk, if_neg hne]
    exact h

theorem futureSuccess_preserves {r : RegState} (hwf : RegWF r) {id : Nat}
    {v : FutVal} (h : r.futures id = some v) (id' payload : Nat) :
    (r.futureSuccess id' payload).1.futures id = some v := by
  cases hlk : r.lookupPending id' with
  | none => simpa [RegState.futureSuccess, hlk] using h
  | some dt =>
    have hmem : (id', dt) ∈ r.pending := lookupPending_mem hlk
    have hne : id ≠ id' := by
      intro heq
      have := (hwf.1 _ hmem).1
      rw [← heq, h] at this
      cases this
    simp only [RegState.futureSuccess, hlk, if_neg hne]
    exact h

theorem timerFire_preserves {r : RegState} (hwf : RegWF r) {id : Nat}
    {v : FutVal} (h : r.futures id = some v) (id' : Nat) :
    (r.timerFire id').futures id = some v := by
  unfold RegState.timerFire
  by_cases hs : (r.futures id').isSome
  · rw [if_pos hs]; exact h
  · rw [if_neg hs]
    exact futureError_preserves hwf h id' Exc.operationTimeout

theorem foldErr_wf {r : RegState} (hwf : RegWF r) (ids : List Nat) :
    RegWF (r.foldErr ids) := by
  induction ids generalizing r with
  | nil => exact hwf
  | cons a ids ih =>
    exact ih (futureError_wf hwf a (Exc.clientDisconnected a)
      (fun j hj => by injection hj with hj'; exact hj'.symm))

theorem foldErr_preserves {r : RegState} (hwf : RegWF r) {id : Nat}
    {v : FutVal} (h : r.futures id = some v) (ids : List Nat) :
    (r.foldErr ids).futures id = some v := by
  induction ids generalizing r with
  | nil => exact h
  | cons a ids ih =>
    exact ih
      (futureError_wf hwf a (Exc.clientDisconnected a)
        (fun j hj => by injection hj with hj'; exact hj'.symm))
      (futureError_preserves hwf h a (Exc.clientDisconnected a))

theorem clearOutgoing_wf {r : RegState} (hwf : RegWF r) :
    RegWF r.clearOutgoing := foldErr_wf hwf _

theorem applyOp_wf {r : RegState} (hwf : RegWF r) (op : ROp) :
    RegWF (r.applyOp op) := by
  cases op with
  | register d t =>
    cases d with
    | false => exact registerFuture_wf hwf t
    | true => exact registerFutureWithDone_wf hwf t
  | success id payload => exact futureSuccess_wf hwf id payload
  | timerFire id => exact timerFire_wf hwf id
  | clearAll => exact clearOutgoing_wf hwf

theorem applyOp_preserves {r : RegState} (hwf : RegWF r) {id : Nat}
    {v : FutVal} (h : r.futures id = some v) (op : ROp) :
    (r.applyOp op).futures id = some v := by
  cases op with
  | register d t =>
    cases d with
    | false => exact h
    | true => exact h
  | success id' payload => exact futureSuccess_preserves hwf h id' payload
  | timerFire id' => exact timerFire_preserves hwf h id'
  | clearAll => exact foldErr_preserves hwf h _

theorem runOps_wf {r : RegState} (hwf : RegWF r) (ops : List ROp) :
    RegWF (r.runOps ops) := by
  induction ops generalizing r with
  | nil => exact hwf
  | cons op ops ih => exact ih (applyOp_wf hwf op)

theorem runOps_preserves {r : RegState} (hwf : RegWF r) {id : Nat}
    {v : FutVal} (h : r.futures id = some v) (ops : List ROp) :
    (r.runOps ops).futures id = some v := by
  induction ops generalizing r with
  | nil => exact h
  | cons op ops ih => exact ih (applyOp_wf hwf op) (applyOp_preserves hwf h op)

/-- Failing a list of pending ids, one by one, empties the registry and
resolves each of those ids with its own client-disconnected error. -/
theorem foldErr_spec (ids : List Nat) :
    ∀ (r : RegState), RegWF r → r.pending.map (fun p => p.1) = ids →
      (r.foldErr ids).pending = [] ∧
      ∀ id ∈ ids, (r.foldErr ids).futures id
          = some (FutVal.exc (Exc.clientDisconnected id)) := by
  induction ids with
  | nil =>
    intro r _ hmap
    have : r.pending = [] := by
      cases hpp : r.pending with
      | nil => rfl
      | cons q ps => rw [hpp] at hmap; cases hmap
    refine ⟨?_, ?_⟩
    · simpa [RegState.foldErr] using this
    · intro id hid; cases hid
  | cons a ids ih =>
    intro r hwf hmap
    cases hp : r.pending with
    | nil => rw [hp] at hmap; cases hmap
    | cons q ps =>
      rw [hp] at hmap
      simp only [List.map_cons, List.cons.injEq] at hmap
      obtain ⟨hq1, hps⟩ := hmap
      have hlk : r.lookupPending a = some q.2 := by
        unfold RegState.lookupPending
        rw [hp, List.find?_cons_of_pos _ (by simp [hq1])]
        rfl
      -- the head is removed; nothing in the tail has id `a`
      have hnodup := hwf.2.2.1
      rw [hp, List.map_cons, hq1, List.nodup_cons] at hnodup
      have htail : ∀ p ∈ ps, p.1 ≠ a := by
        intro p hpmem heq
        exact hnodup.1 (hps ▸ List.mem_map.2 ⟨p, hpmem, heq⟩)
      have herr_pending : (r.futureError a (Exc.clientDisconnected a)).pending = ps := by
        simp only [RegState.futureError, hlk]
        rw [hp, List.filter_cons_of_neg (by simp [hq1])]
        apply List.filter_eq_self.2
        intro p hpmem
        simpa using htail p hpmem
      have herr_res : (r.futureError a (Exc.clientDisconnected a)).futures a
          = some (FutVal.exc (Exc.clientDisconnected a)) := by
        simp [RegState.futureError, hlk]
      have hwf' : RegWF (r.futureError a (Exc.clientDisconnected a)) :=
        futureError_wf hwf a (Exc.clientDisconnected a)
          (fun j hj => by injection hj with hj'; exact hj'.symm)
      have hmap' : (r.futureError a (Exc.clientDisconnected a)).pending.map
          (fun p => p.1) = ids := by
        rw [herr_pending]; exact hps
      have hstep : r.foldErr (a :: ids)
          = (r.futureError a (Exc.clientDisconnected a)).foldErr ids := rfl
      obtain ⟨hemp, hres⟩ := ih _ hwf' hmap'
      refine ⟨hstep ▸ hemp, ?_⟩
      intro id hid
      rcases List.mem_cons.1 hid with hid | hid
      · subst hid
        rw [hstep]
        exact foldErr_preserves hwf' herr_res ids
      · rw [hstep]
        exact hres id hid

/-- The call `_clear_outgoing_futures` empties the registry and fails every pending
command with its client-disconnected error. -/
theorem clearOutgoing_spec {r : RegState} (hwf : RegWF r) :
    r.clearOutgoing.pending = [] ∧
    ∀ p ∈ r.pending, r.clearOutgoing.futures p.1
        = some (FutVal.exc (Exc.clientDisconnected p.1)) := by
  obtain ⟨hemp, hres⟩ := foldErr_spec (r.pending.map (fun p => p.1)) r hwf rfl
  exact ⟨hemp, fun p hp => hres p.1 (List.mem_map.2 ⟨p, hp, rfl⟩)⟩

/-- The call `_disconnect`, when the client is not already `DISCONNECTED`, empties the
client-side pending-command set and emits a `failPending` action for each
formerly pending command. -/
theorem disconnectInternal_fails (c : ClientM) (code : DCode) (reason : Reason)
    (reconnect : Bool) (hc : c.state ≠ ClientState.disconnected) :
    (Client.disconnectInternal c code reason reconnect).1.pendingIds = [] ∧
    c.pendingIds.map Ev.failPending
      ⊆ (Client.disconnectInternal c code reason reconnect).2 := by
  constructor
  · by_cases hf : c.connectedFut = FutStatus.unresolved <;>
      cases reconnect <;>
        simp [Client.disconnectInternal, Client.disconnectPrep,
              Client.disconnectMain, hc, hf]
  · intro x hx
    unfold Client.disconnectInternal
    rw [if_neg (show ¬ (Client.disconnectPrep c reconnect).state
          = ClientState.disconnected by
        simpa [Client.disconnectPrep] using hc)]
    unfold Client.disconnectMain
    exact List.mem_cons_of_mem _
      (List.mem_append_left _ (List.mem_append_left _
        (List.mem_append_left _ (List.mem_append_left _ hx))))

/-! ### Claim C7: `_future_error` semantics and double-resolution -/

/-- C7 counterexample: `_future_error` (client.py 730-737) does not cancel the
timeout timer.  Register command 1 with a timeout timer, resolve it with an
error: the timer is still armed (`some true`), not cancelled (`some false`)
as the claim states.  (Harmless: when the timer later fires, the captured
future is already done, so the callback does nothing.) -/
theorem c7_future_error_counterexample :
    ((regInit.registerFuture true).1.futureError 1
        (Exc.clientDisconnected 1)).timers 1 = some true ∧
    ¬ ((regInit.registerFuture true).1.futureError 1
        (Exc.clientDisconnected 1)).timers 1 = some false := by
  exact ⟨rfl, by decide⟩

/-- C7 (amended): resolving a pending command with an error fails the future,
removes the record from the registry, and signals the barrier if present, but
leaves the timeout timer untouched (it is not cancelled; a later firing is a
no-op because the future is already done); resolving an already-resolved
command a second time — by success, error, or timeout — is a no-op in which
the first resolution wins. -/
theorem c7_future_error_amended (r : RegState) (id : Nat) (e e' : Exc)
    (payload : Nat) (hasDone hasTimer : Bool)
    (hp : r.lookupPending id = some (hasDone, hasTimer)) :
    (r.futureError id e).futures id = some (FutVal.exc e) ∧
    (r.futureError id e).lookupPending id = none ∧
    (r.futureError id e).doneFired
      = (if hasDone then id :: r.doneFired else r.doneFired) ∧
    (r.futureError id e).timers = r.timers ∧
    (r.futureError id e).futureError id e' = r.futureError id e ∧
    (r.futureError id e).futureSuccess id payload = (r.futureError id e, false) ∧
    (r.futureError id e).timerFire id = r.futureError id e := by
  have h1 : (r.futureError id e).futures id = some (FutVal.exc e) := by
    simp [RegState.futureError, hp]
  have h2 : (r.futureError id e).lookupPending id = none := by
    apply lookupPending_none
    intro p hp'
    simp only [RegState.futureError, hp] at hp'
    exact (mem_filter_ne hp').2
  have h5 : ∀ (r' : RegState), r'.lookupPending id = none →
      r'.futureError id e' = r' ∧ r'.futureSuccess id payload = (r', false) := by
    intro r' h
    constructor
    · simp [RegState.futureError, h]
    · simp [RegState.futureSuccess, h]
  have h7 : ∀ (r' : RegState), r'.futures id = some (FutVal.exc e) →
      r'.timerFire id = r' := by
    intro r' h
    simp [RegState.timerFire, h]
  refine ⟨h1, h2, ?_, ?_, (h5 _ h2).1, (h5 _ h2).2, h7 _ h1⟩
  · simp [RegState.futureError, hp]
  · simp [RegState.futureError, hp]

/-- C7 witness: command 1 registered with barrier and timer, then resolved
with the timeout error. -/
theorem c7_future_error_amended_witness :
    ((regInit.registerFutureWithDone true).1.futureError 1
        Exc.operationTimeout).futures 1
      = some (FutVal.exc Exc.operationTimeout) ∧
    ((regInit.registerFutureWithDone true).1.futureError 1
        Exc.operationTimeout).lookupPending 1 = none ∧
    ((regInit.registerFutureWithDone true).1.futureError 1
        Exc.operationTimeout).doneFired = [1] ∧
    ((regInit.registerFutureWithDone true).1.futureError 1
        Exc.operationTimeout).timers 1 = some true ∧
    ((regInit.registerFutureWithDone true).1.futureError 1
        Exc.operationTimeout).timerFire 1
      = (regInit.registerFutureWithDone true).1.futureError 1
          Exc.operationTimeout := by
  have h := c7_future_error_amended (regInit.registerFutureWithDone true).1 1
    Exc.operationTimeout (Exc.clientDisconnected 1) 42 true true (by decide)
  refine ⟨h.1, h.2.1, ?_, ?_, h.2.2.2.2.2.2⟩
  · rw [h.2.2.1]; rfl
  · rw [congrFun h.2.2.2.1 1]; rfl

/-! ### Claim C6: disconnect fails all pending commands; exactly-once
resolution -/

/-- C6: `_clear_outgoing_futures` (invoked by `_disconnect` whenever the
client is not already `DISCONNECTED`) fails every pending command with its
client-disconnected error and empties the registry, and `_disconnect` clears
the client-side pending set while emitting a `failPending` action for each
pending command; moreover a command's future, once resolved, keeps its first
resolution through any further registry activity, and that resolution is a
server reply, a timeout error, or the client-disconnected error for that very
command (`FutVal`/`Exc` cover exactly these shapes by construction). -/
theorem c6_pending_commands_resolution (r : RegState) (hwf : RegWF r)
    (ops more : List ROp) (id : Nat) (v : FutVal)
    (hres : (regInit.runOps ops).futures id = some v)
    (p : Nat × Bool × Bool) (hp : p ∈ r.pending)
    (c : ClientM) (code : DCode) (reason : Reason) (reconnect : Bool)
    (hc : c.state ≠ ClientState.disconnected) :
    r.clearOutgoing.pending = [] ∧
    r.clearOutgoing.futures p.1
      = some (FutVal.exc (Exc.clientDisconnected p.1)) ∧
    (regInit.runOps (ops ++ more)).futures id = some v ∧
    (v.disconnectTag = none ∨ v.disconnectTag = some id) ∧
    (Client.disconnectInternal c code reason reconnect).1.pendingIds = [] ∧
    c.pendingIds.map Ev.failPending
      ⊆ (Client.disconnectInternal c code reason reconnect).2 := by
  obtain ⟨hemp, hres'⟩ := clearOutgoing_spec hwf
  have hwfops : RegWF (regInit.runOps ops) := runOps_wf regInit_wf ops
  have happ : regInit.runOps (ops ++ more)
      = (regInit.runOps ops).runOps more := by
    unfold RegState.runOps
    exact List.foldl_append _ _ _ _
  obtain ⟨hpend, hsub⟩ := disconnectInternal_fails c code reason reconnect hc
  refine ⟨hemp, hres' p hp, ?_, ?_, hpend, hsub⟩
  · rw [happ]
    exact runOps_preserves hwfops hres more
  · cases v with
    | reply payload => left; rfl
    | exc e =>
      cases e with
      | operationTimeout => left; rfl
      | clientDisconnected j =>
        right
        have := hwfops.2.2.2 id j hres
        simp [FutVal.disconnectTag, this]

/-- Registry and client used by the C6 witness. -/
def c6Reg : RegState := (regInit.registerFutureWithDone true).1

def c6Client : ClientM :=
  { c2TraceB with pendingIds := [4, 7] }

def c6Ops : List ROp := [ROp.register true true, ROp.success 1 42]

def c6More : List ROp := [ROp.timerFire 1, ROp.clearAll]

/-- C6 witness: a registry with pending command 1 cleared by disconnect; a
trace where command 1 is resolved by its reply and keeps that reply through a
later timer fire and a disconnect; a connected client with pending commands 4
and 7 failing them on disconnect. -/
theorem c6_pending_commands_resolution_witness :
    c6Reg.clearOutgoing.pending = [] ∧
    c6Reg.clearOutgoing.futures 1
      = some (FutVal.exc (Exc.clientDisconnected 1)) ∧
    (regInit.runOps (c6Ops ++ c6More)).futures 1 = some (FutVal.reply 42) ∧
    ((FutVal.reply 42).disconnectTag = none ∨
      (FutVal.reply 42).disconnectTag = some 1) ∧
    (Client.disconnectInternal c6Client DCode.disconnectCalled
        (Reason.ofCode DCode.disconnectCalled) false).1.pendingIds = [] ∧
    Ev.failPending 4 ∈ (Client.disconnectInternal c6Client DCode.disconnectCalled
        (Reason.ofCode DCode.disconnectCalled) false).2 := by
  have h := c6_pending_commands_resolution c6Reg
    (registerFutureWithDone_wf regInit_wf true) c6Ops c6More 1
    (FutVal.reply 42) (by decide) (1, true, true) (by decide)
    c6Client DCode.disconnectCalled (Reason.ofCode DCode.disconnectCalled)
    false (by decide)
  exact ⟨h.1, h.2.1, h.2.2.1, h.2.2.2.1, h.2.2.2.2.1,
         h.2.2.2.2.2 (by decide)⟩

/-! ### The reply barrier (`_register_future_with_done` / `_future_success`)
and push dispatch ordering within one transport frame.

`_process_incoming_data` dispatches the replies of one frame in order
(client.py 1116-1122).  For a frame `[reply(id=k), push, ...]` where command
`k` was registered with a barrier, the process loop runs
`_future_success`: it sets the reply future and then awaits the `done`
barrier (client.py 748-749), while the coroutine that awaited the reply
performs its post-processing and sets `done` only on leaving the
`_register_future_with_done` scope (client.py 725-728).  We model the two
coroutines as instruction lists over shared one-shot futures (`0` = the reply
future, `1` = the `done` barrier) and let a small-step relation interleave
them arbitrarily — the single-threaded asyncio loop is one such
interleaving. -/

/-- Events observable from the frame-processing interleaving. -/
inductive SEv
  | postEv (n : Nat)
  | pushEv (n : Nat)
  deriving DecidableEq, Repr

/-- One atomic piece of a coroutine: emit an event, resolve a future, or
suspend until a future is resolved. -/
inductive Instr
  | emitI (e : SEv)
  | setF (f : Nat)
  | awaitF (f : Nat)
  deriving DecidableEq, Repr

/-- Two tasks, the set of resolved futures, and the dispatch trace. -/
structure Sched where
  t1 : List Instr
  t2 : List Instr
  resolved : List Nat
  trace : List SEv
  deriving DecidableEq, Repr

/-- The process loop handling one frame `[reply, pushes...]`:
`_future_success` sets the reply future (`setF 0`) and awaits the barrier
(`awaitF 1`), then the loop dispatches the remaining pushes of the frame. -/
def procProg (pushes : List Nat) : List Instr :=
  Instr.setF 0 :: Instr.awaitF 1 ::
    pushes.map (fun n => Instr.emitI (SEv.pushEv n))

/-- The coroutine inside the `_register_future_with_done` scope: await the
reply, run the post-processing (`on_connected`/`on_subscribed` and initial
publications), and set the barrier on scope exit. -/
def bodyProg (posts : List Nat) : List Instr :=
  Instr.awaitF 0 ::
    (posts.map (fun n => Instr.emitI (SEv.postEv n)) ++ [Instr.setF 1])

/-- Arbitrary interleaving of the two tasks; an `awaitF` can only be passed
once its future is resolved. -/
inductive SStep : Sched → Sched → Prop
  | emit1 {s : Sched} {e : SEv} {rest : List Instr}
      (h : s.t1 = Instr.emitI e :: rest) :
      SStep s { s with t1 := rest, trace := s.trace ++ [e] }
  | set1 {s : Sched} {f : Nat} {rest : List Instr}
      (h : s.t1 = Instr.setF f :: rest) :
      SStep s { s with t1 := rest, resolved := f :: s.resolved }
  | await1 {s : Sched} {f : Nat} {rest : List Instr}
      (h : s.t1 = Instr.awaitF f :: rest) (hr : f ∈ s.resolved) :
      SStep s { s with t1 := rest }
  | emit2 {s : Sched} {e : SEv} {rest : List Instr}
      (h : s.t2 = Instr.emitI e :: rest) :
      SStep s { s with t2 := rest, trace := s.trace ++ [e] }
  | set2 {s : Sched} {f : Nat} {rest : List Instr}
      (h : s.t2 = Instr.setF f :: rest) :
      SStep s { s with t2 := rest, resolved := f :: s.resolved }
  | await2 {s : Sched} {f : Nat} {rest : List Instr}
      (h : s.t2 = Instr.awaitF f :: rest) (hr : f ∈ s.resolved) :
      SStep s { s with t2 := rest }

def schedInit (pushes posts : List Nat) : Sched :=
  { t1 := procProg pushes
    t2 := bodyProg posts
    resolved := []
    trace := [] }

inductive SReach (pushes posts : List Nat) : Sched → Prop
  | init : SReach pushes posts (schedInit pushes posts)
  | step {s s' : Sched} : SReach pushes posts s → SStep s s' →
      SReach pushes posts s'

/-- Shapes the process-loop task can be in. -/
def T1Shape (pushes : List Nat) (s : Sched) : Prop :=
  s.t1 = procProg pushes ∨
  s.t1 = Instr.awaitF 1 :: pushes.map (fun n => Instr.emitI (SEv.pushEv n)) ∨
  (∃ rem pre, pushes = pre ++ rem ∧
    s.t1 = rem.map (fun n => Instr.emitI (SEv.pushEv n)) ∧ 1 ∈ s.resolved)

/-- Shapes the barriered-reply coroutine can be in; past the await, the
already-emitted post-processing events are in the trace. -/
def T2Shape (posts : List Nat) (s : Sched) : Prop :=
  s.t2 = bodyProg posts ∨
  (∃ rem pre, posts = pre ++ rem ∧
    s.t2 = rem.map (fun n => Instr.emitI (SEv.postEv n)) ++ [Instr.setF 1] ∧
    ∀ p ∈ pre, SEv.postEv p ∈ s.trace) ∨
  (s.t2 = [] ∧ ∀ p ∈ posts, SEv.postEv p ∈ s.trace)

/-- The barrier resolves only after the whole post-processing ran. -/
def ResInv (posts : List Nat) (s : Sched) : Prop :=
  1 ∈ s.resolved → s.t2 = [] ∧ ∀ p ∈ posts, SEv.postEv p ∈ s.trace

/-- Every push in the trace is preceded by the full post-processing. -/
def orderedTrace (posts : List Nat) (tr : List SEv) : Prop :=
  ∀ a k b, tr = a ++ SEv.pushEv k :: b → ∀ p ∈ posts, SEv.postEv p ∈ a

def SchedInv (pushes posts : List Nat) (s : Sched) : Prop :=
  T1Shape pushes s ∧ T2Shape posts s ∧ ResInv posts s ∧
    orderedTrace posts s.trace

theorem snoc_decomp {tr : List SEv} {e : SEv} {a : List SEv} {x : SEv}
    {b : List SEv} (h : tr ++ [e] = a ++ x :: b) :
    (b = [] ∧ a = tr ∧ x = e) ∨ (∃ b', b = b' ++ [e] ∧ tr = a ++ x :: b') := by
  rcases List.eq_nil_or_concat b with hb | ⟨b', y, hb⟩
  · subst hb
    have := List.append_inj' h (by rfl)
    exact Or.inl ⟨rfl, this.1.symm, by simpa using this.2.symm⟩
  · subst hb
    right
    have h' : tr ++ [e] = (a ++ x :: b') ++ [y] := by
      rw [h, List.concat_eq_append]
      simp
    have := List.append_inj' h' (by rfl)
    have hey : e = y := by simpa using this.2
    refine ⟨b', ?_, this.1⟩
    rw [List.concat_eq_append, hey]

theorem orderedTrace_nil (posts : List Nat) : orderedTrace posts [] := by
  intro a k b h
  exact absurd h (by simp)

theorem orderedTrace_append_post {posts : List Nat} {tr : List SEv} {e : SEv}
    (hord : orderedTrace posts tr) (he : ∀ k, e ≠ SEv.pushEv k) :
    orderedTrace posts (tr ++ [e]) := by
  intro a k b h
  rcases snoc_decomp h with ⟨_, _, hx⟩ | ⟨b', _, htr⟩
  · exact absurd hx.symm (he k)
  · exact hord a k b' htr

theorem orderedTrace_append_push {posts : List Nat} {tr : List SEv} {k : Nat}
    (hord : orderedTrace posts tr)
    (hall : ∀ p ∈ posts, SEv.postEv p ∈ tr) :
    orderedTrace posts (tr ++ [SEv.pushEv k]) := by
  intro a k' b h
  rcases snoc_decomp h with ⟨_, ha, _⟩ | ⟨b', _, htr⟩
  · subst ha; exact hall
  · exact hord a k' b' htr

theorem schedInv_init (pushes posts : List Nat) :
    SchedInv pushes posts (schedInit pushes posts) := by
  refine ⟨Or.inl rfl, Or.inl rfl, ?_, orderedTrace_nil posts⟩
  intro h1
  simp [schedInit] at h1

theorem schedInv_step {pushes posts : List Nat} {s s' : Sched}
    (hinv : SchedInv pushes posts s) (hs : SStep s s') :
    SchedInv pushes posts s' := by
  obtain ⟨ht1, ht2, hres, hord⟩ := hinv
  cases hs with
  | emit1 h =>
    rcases ht1 with hc | hc | ⟨rem, pre, hsplit, hmap, h1res⟩
    · rw [h] at hc; cases hc
    · rw [h] at hc; cases hc
    · rw [h] at hmap
      cases rem with
      | nil => cases hmap
      | cons n rem' =>
        simp only [List.map_cons, List.cons.injEq, Instr.emitI.injEq] at hmap
        obtain ⟨hen, hrest⟩ := hmap
        subst hen
        have hall : ∀ p ∈ posts, SEv.postEv p ∈ s.trace := (hres h1res).2
        refine ⟨?_, ?_, ?_, ?_⟩
        · right; right
          exact ⟨rem', pre ++ [n], by rw [hsplit]; simp, hrest, h1res⟩
        · rcases ht2 with hc2 | ⟨rem2, pre2, hs2, hm2, hmem2⟩ | ⟨hc2, hmem2⟩
          · exact Or.inl hc2
          · exact Or.inr (Or.inl ⟨rem2, pre2, hs2, hm2,
              fun p hp => List.mem_append_left _ (hmem2 p hp)⟩)
          · exact Or.inr (Or.inr ⟨hc2,
              fun p hp => List.mem_append_left _ (hmem2 p hp)⟩)
        · intro h1
          obtain ⟨he2, hm2⟩ := hres h1
          exact ⟨he2, fun p hp => List.mem_append_left _ (hm2 p hp)⟩
        · exact orderedTrace_append_push hord hall
  | set1 h =>
    rcases ht1 with hc | hc | ⟨rem, pre, hsplit, hmap, h1res⟩
    · rw [h] at hc
      unfold procProg at hc
      injection hc with hf hrest
      injection hf with hf
      refine ⟨Or.inr (Or.inl hrest), ht2, ?_, hord⟩
      intro h1
      rcases List.mem_cons.1 h1 with h1 | h1
      · omega
      · exact hres h1
    · rw [h] at hc; cases hc
    · rw [h] at hmap
      cases rem with
      | nil => cases hmap
      | cons n rem' => cases hmap
  | await1 h hr =>
    rcases ht1 with hc | hc | ⟨rem, pre, hsplit, hmap, h1res⟩
    · rw [h] at hc; cases hc
    · rw [h] at hc
      injection hc with hf hrest
      injection hf with hf
      refine ⟨?_, ht2, hres, hord⟩
      right; right
      refine ⟨pushes, [], by simp, hrest, ?_⟩
      rw [← hf]; exact hr
    · rw [h] at hmap
      cases rem with
      | nil => cases hmap
      | cons n rem' => cases hmap
  | emit2 h =>
    rcases ht2 with hc | ⟨rem, pre, hsplit, hmap, hmem⟩ | ⟨hc, _⟩
    · rw [h] at hc; cases hc
    · rw [h] at hmap
      cases rem with
      | nil => cases hmap
      | cons n rem' =>
        simp only [List.map_cons, List.cons_append, List.cons.injEq,
          Instr.emitI.injEq] at hmap
        obtain ⟨hen, hrest⟩ := hmap
        subst hen
        refine ⟨?_, ?_, ?_, ?_⟩
        · rcases ht1 with hc1 | hc1 | ⟨rem1, pre1, hs1, hm1, h1res⟩
          · exact Or.inl hc1
          · exact Or.inr (Or.inl hc1)
          · exact Or.inr (Or.inr ⟨rem1, pre1, hs1, hm1, h1res⟩)
        · right; left
          refine ⟨rem', pre ++ [n], by rw [hsplit]; simp, hrest, ?_⟩
          intro p hp
          rcases List.mem_append.1 hp with hp | hp
          · exact List.mem_append_left _ (hmem p hp)
          · rw [List.mem_singleton.1 hp]
            exact List.mem_append_right _ (List.mem_singleton.2 rfl)
        · intro h1
          have := (hres h1).1
          rw [h] at this
          cases this
        · exact orderedTrace_append_post hord (fun k hk => by cases hk)
    · rw [h] at hc; cases hc
  | set2 h =>
    rcases ht2 with hc | ⟨rem, pre, hsplit, hmap, hmem⟩ | ⟨hc, _⟩
    · rw [h] at hc
      unfold bodyProg at hc
      injection hc with hf hrest
      cases hf
    · rw [h] at hmap
      cases rem with
      | cons n rem' => cases hmap
      | nil =>
        simp only [List.map_nil, List.nil_append] at hmap
        injection hmap with hf hrest
        have hpre : posts = pre := by simpa using hsplit
        refine ⟨?_, ?_, ?_, hord⟩
        · rcases ht1 with hc1 | hc1 | ⟨rem1, pre1, hs1, hm1, h1res⟩
          · exact Or.inl hc1
          · exact Or.inr (Or.inl hc1)
          · exact Or.inr (Or.inr ⟨rem1, pre1, hs1, hm1,
              List.mem_cons_of_mem _ h1res⟩)
        · right; right
          exact ⟨hrest, fun p hp => hmem p (hpre ▸ hp)⟩
        · intro _
          exact ⟨hrest, fun p hp => hmem p (hpre ▸ hp)⟩
    · rw [h] at hc; cases hc
  | await2 h hr =>
    rcases ht2 with hc | ⟨rem, pre, hsplit, hmap, hmem⟩ | ⟨hc, _⟩
    · rw [h] at hc
      unfold bodyProg at hc
      injection hc with hf hrest
      refine ⟨ht1, ?_, ?_, hord⟩
      · right; left
        exact ⟨posts, [], by simp, hrest, by intro p hp; cases hp⟩
      · intro h1
        have := (hres h1).1
        rw [h] at this
        cases this
    · rw [h] at hmap
      cases rem with
      | nil => cases hmap
      | cons n rem' => cases hmap
    · rw [h] at hc; cases hc

theorem schedInv_reach {pushes posts : List Nat} {s : Sched}
    (hr : SReach pushes posts s) : SchedInv pushes posts s := by
  induction hr with
  | init => exact schedInv_init pushes posts
  | step _ hs ih => exact schedInv_step ih hs

/-! ### Claim C3: reply resolution and the push-dispatch barrier -/

/-- C3: resolving a barrier-registered reply via `_future_success` sets the
reply on the future, removes the pending record, cancels the timeout timer,
and hands the caller the barrier to await (`_future_success` does not return
before `done` resolves); and in every interleaved execution of the frame
scheduler, every push dispatched after the reply appears in the trace only
after the complete post-processing of the reply, i.e. every post-processing
event precedes it. -/
theorem c3_reply_barrier_ordering (r : RegState) (id payload : Nat)
    (hasDone hasTimer : Bool)
    (hp : r.lookupPending id = some (hasDone, hasTimer))
    (pushes posts : List Nat) (s : Sched) (hr : SReach pushes posts s)
    (a : List SEv) (k : Nat) (b : List SEv)
    (htr : s.trace = a ++ SEv.pushEv k :: b) (p : Nat) (hpost : p ∈ posts) :
    (r.futureSuccess id payload).1.futures id = some (FutVal.reply payload) ∧
    (r.futureSuccess id payload).1.lookupPending id = none ∧
    (r.futureSuccess id payload).1.timers id
      = (if hasTimer then some false else r.timers id) ∧
    (r.futureSuccess id payload).2 = hasDone ∧
    SEv.postEv p ∈ a := by
  refine ⟨?_, ?_, ?_, ?_, ?_⟩
  · simp [RegState.futureSuccess, hp]
  · apply lookupPending_none
    intro q hq
    simp only [RegState.futureSuccess, hp] at hq
    exact (mem_filter_ne hq).2
  · cases hasTimer with
    | false => simp [RegState.futureSuccess, hp]
    | true => simp [RegState.futureSuccess, hp]
  · simp [RegState.futureSuccess, hp]
  · exact (schedInv_reach hr).2.2.2 a k b htr p hpost

/-- The frame scheduler with one push after the reply and one
post-processing event, run to completion: the post event precedes the push
event in the final trace. -/
def c3Final : Sched :=
  { t1 := []
    t2 := []
    resolved := [1, 0]
    trace := [SEv.postEv 5, SEv.pushEv 7] }

theorem c3Final_reach : SReach [7] [5] c3Final := by
  have h0 : SReach [7] [5] (schedInit [7] [5]) := SReach.init
  have h1 := SReach.step h0 (SStep.set1 (by rfl))
  have h2 := SReach.step h1 (SStep.await2 (by rfl) (by decide))
  have h3 := SReach.step h2 (SStep.emit2 (by rfl))
  have h4 := SReach.step h3 (SStep.set2 (by rfl))
  have h5 := SReach.step h4 (SStep.await1 (by rfl) (by decide))
  have h6 := SReach.step h5 (SStep.emit1 (by rfl))
  exact h6

/-- C3 witness: command 1 registered with barrier and timer, resolved with
reply 42; the completed run of the frame scheduler with trace
`[postEv 5, pushEv 7]`. -/
theorem c3_reply_barrier_ordering_witness :
    ((regInit.registerFutureWithDone true).1.futureSuccess 1 42).1.futures 1
      = some (FutVal.reply 42) ∧
    ((regInit.registerFutureWithDone true).1.futureSuccess 1 42).1.lookupPending 1
      = none ∧
    ((regInit.registerFutureWithDone true).1.futureSuccess 1 42).1.timers 1
      = some false ∧
    ((regInit.registerFutureWithDone true).1.futureSuccess 1 42).2 = true ∧
    SEv.postEv 5 ∈ [SEv.postEv 5] := by
  have h := c3_reply_barrier_ordering (regInit.registerFutureWithDone true).1
    1 42 true true (by decide) [7] [5] c3Final c3Final_reach
    [SEv.postEv 5] 7 [] (by rfl) 5 (by decide)
  exact ⟨h.1, h.2.1, h.2.2.1, h.2.2.2.1, h.2.2.2.2⟩

/-! ### Subscriptions (client.py 1177-1448) -/

/-- Resolution status of a subscription's `_subscribed_future`. -/
inductive SubFut
  | unresolved
  | resolvedOk
  | resolvedErr
  deriving DecidableEq, Repr

/-- The per-subscription state (client.py 1201-1228).  `subFutGen` counts
replacements of `_subscribed_future` by a fresh `asyncio.Future()`. -/
structure SubM where
  channel : String
  state : SubState
  subFutGen : Nat
  subFut : SubFut
  resubAttempts : Nat
  refreshTimer : Bool
  resubTimer : Bool
  deriving DecidableEq, Repr

/-- A freshly created subscription (client.py 1214-1228): `UNSUBSCRIBED` with
an unresolved `_subscribed_future`. -/
def subInit (channel : String) : SubM :=
  { channel := channel
    state := SubState.unsubscribed
    subFutGen := 0
    subFut := SubFut.unresolved
    resubAttempts := 0
    refreshTimer := false
    resubTimer := false }

/-- Models `Subscription.subscribe` (client.py 1275-1285): a no-op when
`SUBSCRIBING`; otherwise set `SUBSCRIBING`, emit
`on_subscribing(SUBSCRIBE_CALLED)`, and call `client.resubscribe(self)`,
which re-registers the subscription in the client map and issues the
subscribe command (client.py 651-653).  Note: `_subscribed_future` is NOT
replaced here, even when it is already resolved. -/
def Subscription.subscribe (s : SubM) : SubM × List Ev :=
  if s.state = SubState.subscribing then (s, [])
  else
    ({ s with state := SubState.subscribing },
     [Ev.onSubscribing s.channel DCode.subscribeCalled,
      Ev.registerSub s.channel,
      Ev.sendSubscribeCmd s.channel])

/-- Models `Subscription._move_unsubscribed` (client.py 1308-1341): no-op when
already `UNSUBSCRIBED`; clear the state-specific timers; set `UNSUBSCRIBED`;
replace `_subscribed_future` if resolved and resolve the (fresh) future with
`SubscriptionUnsubscribedError`; emit `on_unsubscribed`; optionally send the
unsubscribe command through the client. -/
def Subscription.moveUnsubscribed (s : SubM) (code : DCode)
    (sendUnsubscribeCommand : Bool) : SubM × List Ev :=
  if s.state = SubState.unsubscribed then (s, [])
  else
    let s1 :=
      if s.state = SubState.subscribed then { s with refreshTimer := false }
      else { s with resubAttempts := 0, resubTimer := false }
    let s2 := { s1 with state := SubState.unsubscribed }
    let s3 :=
      if s2.subFut = SubFut.unresolved then s2
      else { s2 with subFutGen := s2.subFutGen + 1, subFut := SubFut.unresolved }
    let s4 := { s3 with subFut := SubFut.resolvedErr }
    (s4, [Ev.onUnsubscribed s.channel code] ++
          (if sendUnsubscribeCommand then [Ev.sendUnsubscribeCmd s.channel] else []))

/-- Models `Subscription.move_subscribing` (client.py 1347-1372): no-op when already
`SUBSCRIBING`; clear subscribed state; set `SUBSCRIBING`; replace
`_subscribed_future` if resolved; emit `on_subscribing`; schedule a
resubscribe through the client unless skipped. -/
def Subscription.moveSubscribing (s : SubM) (code : DCode)
    (skipScheduleResubscribe : Bool) : SubM × List Ev :=
  if s.state = SubState.subscribing then (s, [])
  else
    let s1 :=
      if s.state = SubState.subscribed then { s with refreshTimer := false } else s
    let s2 := { s1 with state := SubState.subscribing }
    let s3 :=
      if s2.subFut = SubFut.unresolved then s2
      else { s2 with subFutGen := s2.subFutGen + 1, subFut := SubFut.unresolved }
    (s3, [Ev.onSubscribing s.channel code] ++
          (if skipScheduleResubscribe then []
           else [Ev.registerSub s.channel, Ev.sendSubscribeCmd s.channel]))

/-- A `set_result`/`set_exception` on an already-resolved `asyncio.Future`
raises `InvalidStateError`. -/
inductive AsyncioRaise
  | invalidState
  deriving DecidableEq, Repr

/-- The first two statements of `Subscription._move_subscribed` (client.py
1374-1376): set `SUBSCRIBED` and `set_result(True)` on
`_subscribed_future` — the latter raises `InvalidStateError` when the future
is already resolved. -/
def Subscription.moveSubscribedStart (s : SubM) : Except AsyncioRaise SubM :=
  let s1 := { s with state := SubState.subscribed }
  if s1.subFut = SubFut.unresolved then
    Except.ok { s1 with subFut := SubFut.resolvedOk }
  else Except.error AsyncioRaise.invalidState

/-- Models `Subscription.unsubscribe` (client.py 1287-1293): move to `UNSUBSCRIBED`
with `UNSUBSCRIBE_CALLED` and send an unsubscribe command to the server. -/
def Subscription.unsubscribe (s : SubM) : SubM × List Ev :=
  Subscription.moveUnsubscribed s DCode.unsubscribeCalled true

/-! ### Claim C8: `subscribe()` and the subscribed-future refresh -/

/-- A subscription that was `SUBSCRIBED` (future resolved with `True`). -/
def c8SubStart : SubM :=
  { subInit "room" with state := SubState.subscribed, subFut := SubFut.resolvedOk }

/-- The same subscription then terminally unsubscribed by the server (code 2000 < 2500): the
future is now resolved with `SubscriptionUnsubscribedError`. -/
def c8SubAfterUnsub : SubM :=
  (Subscription.moveUnsubscribed c8SubStart (DCode.server 2000) false).1

/-- C8: evaluating `Subscription.subscribe()` on a subscription whose
`_subscribed_future` is resolved shows the claimed refresh does not happen:
the state becomes `SUBSCRIBING`, `on_subscribing(SUBSCRIBE_CALLED)` is
emitted, the subscription is re-registered and a subscribe command is
requested — but the resolved future is kept (no fresh future, generation
unchanged), so the later `_move_subscribed` for the successful subscribe
reply raises `InvalidStateError` from `set_result`. -/
theorem c8_subscribe_no_future_refresh :
    (Subscription.subscribe c8SubAfterUnsub).1.state = SubState.subscribing ∧
    (Subscription.subscribe c8SubAfterUnsub).2
      = [Ev.onSubscribing "room" DCode.subscribeCalled,
         Ev.registerSub "room", Ev.sendSubscribeCmd "room"] ∧
    (Subscription.subscribe c8SubAfterUnsub).1.subFut = SubFut.resolvedErr ∧
    (Subscription.subscribe c8SubAfterUnsub).1.subFutGen
      = c8SubAfterUnsub.subFutGen ∧
    Subscription.moveSubscribedStart (Subscription.subscribe c8SubAfterUnsub).1
      = Except.error AsyncioRaise.invalidState := by
  exact ⟨by decide, by decide, by decide, by decide, rfl⟩

/-- By contrast, `move_subscribing` (used by every other path into
`SUBSCRIBING`) does refresh a resolved future — supporting that the omission
in `subscribe()` is a slip. -/
theorem c8_move_subscribing_refreshes :
    (Subscription.moveSubscribing c8SubAfterUnsub DCode.subscribeCalled false).1.subFut
      = SubFut.unresolved ∧
    (Subscription.moveSubscribing c8SubAfterUnsub DCode.subscribeCalled false).1.subFutGen
      = c8SubAfterUnsub.subFutGen + 1 := by
  exact ⟨by decide, by decide⟩

/-! ### Claim C5: connect-reply errors -/

/-- Modelled from the spec: `utils._is_token_expired` is not under `src/`;
spec scenario S3 identifies error code 109 as the token-expiry code. -/
def isTokenExpired (code : Nat) : Bool := code == 109

/-- Where the next connect attempt takes its token from
(`_create_connection`, client.py 284-303): a non-empty stored token is used
as is; otherwise a configured token provider is invoked. -/
inductive TokenSource
  | staticToken (token : String)
  | provider
  | noToken
  deriving DecidableEq, Repr

def connectTokenSource (token : String) (hasProvider : Bool) : TokenSource :=
  if token ≠ "" then TokenSource.staticToken token
  else if hasProvider then TokenSource.provider
  else TokenSource.noToken

/-- The connect-reply error branch of `_create_connection` (client.py
343-361): extract `(code, message, temporary)`; a token-expiry code forces
`temporary = True` and clears the stored token; a temporary error closes the
transport, emits `on_error(CONNECT_REPLY_ERROR, ReplyError(...))` and
schedules a reconnect; a non-temporary error performs
`_disconnect(code, message, False)`.  Returns the updated client, the updated
stored token, and the emitted actions. -/
def Client.handleConnectReplyError (c : ClientM) (token : String) (code : Nat)
    (message : String) (temporary : Bool) : (ClientM × String) × List Ev :=
  let temporary2 := if isTokenExpired code then true else temporary
  let token2 := if isTokenExpired code then "" else token
  if temporary2 then
    (({ c with connOpen := false }, token2),
     [Ev.closeTransport,
      Ev.onErrorReply ErrTag.connectReplyError code message temporary2,
      Ev.scheduleReconnect])
  else
    let res := Client.disconnectInternal c (DCode.server code)
      (Reason.text message) false
    ((res.1, token2), res.2)

/-- A terminal `_disconnect` never schedules a reconnect. -/
theorem disconnectInternal_no_reconnect_ev (c : ClientM) (code : DCode)
    (reason : Reason) :
    Ev.scheduleReconnect ∉ (Client.disconnectInternal c code reason false).2 := by
  by_cases hd : (Client.disconnectPrep c false).state = ClientState.disconnected
  · simp [Client.disconnectInternal, hd]
  · simp [Client.disconnectInternal, hd, Client.disconnectMain]

/-- C5: when the connect reply carries an error whose code indicates token
expiry, the client forces `temporary = True`, clears the stored token (so
that the next attempt falls back to the token provider), closes the
transport, emits `on_error(CONNECT_REPLY_ERROR)` and schedules a reconnect;
the same happens for any other temporary error but with the token kept; a
non-temporary, non-expiry error instead causes an internal disconnect with
the reply's code and message and no reconnect (state `DISCONNECTED`,
`_need_reconnect = False`, no reconnect scheduled). -/
theorem c5_connect_reply_error (c : ClientM) (token : String) (code : Nat)
    (message : String) (temporary : Bool) :
    (isTokenExpired code = true →
      (Client.handleConnectReplyError c token code message temporary).1.2 = "" ∧
      (Client.handleConnectReplyError c token code message temporary).2
        = [Ev.closeTransport,
           Ev.onErrorReply ErrTag.connectReplyError code message true,
           Ev.scheduleReconnect] ∧
      (Client.handleConnectReplyError c token code message temporary).1.1.connOpen
        = false ∧
      connectTokenSource "" true = TokenSource.provider) ∧
    (isTokenExpired code = false → temporary = true →
      (Client.handleConnectReplyError c token code message temporary).1.2
        = token ∧
      (Client.handleConnectReplyError c token code message temporary).2
        = [Ev.closeTransport,
           Ev.onErrorReply ErrTag.connectReplyError code message true,
           Ev.scheduleReconnect]) ∧
    (isTokenExpired code = false → temporary = false →
      (Client.handleConnectReplyError c token code message temporary).1.1
        = (Client.disconnectInternal c (DCode.server code)
            (Reason.text message) false).1 ∧
      (Client.handleConnectReplyError c token code message temporary).1.1.state
        = ClientState.disconnected ∧
      (Client.handleConnectReplyError c token code message temporary).1.1.needReconnect
        = false ∧
      Ev.scheduleReconnect
        ∉ (Client.handleConnectReplyError c token code message temporary).2) := by
  refine ⟨?_, ?_, ?_⟩
  · intro hexp
    refine ⟨?_, ?_, ?_, rfl⟩ <;>
      simp [Client.handleConnectReplyError, hexp]
  · intro hexp htemp
    subst htemp
    refine ⟨?_, ?_⟩ <;>
      simp [Client.handleConnectReplyError, hexp]
  · intro hexp htemp
    subst htemp
    have h1 : (Client.handleConnectReplyError c token code message false).1.1
        = (Client.disconnectInternal c (DCode.server code)
            (Reason.text message) false).1 := by
      simp [Client.handleConnectReplyError, hexp]
    have h2 : (Client.handleConnectReplyError c token code message false).2
        = (Client.disconnectInternal c (DCode.server code)
            (Reason.text message) false).2 := by
      simp [Client.handleConnectReplyError, hexp]
    refine ⟨h1, ?_, ?_, ?_⟩
    · rw [h1]
      exact (disconnectInternal_terminal c (DCode.server code)
        (Reason.text message)).1
    · rw [h1]
      exact (disconnectInternal_terminal c (DCode.server code)
        (Reason.text message)).2
    · rw [h2]
      exact disconnectInternal_no_reconnect_ev c (DCode.server code)
        (Reason.text message)

/-- C5 witness: expiry code 109 (with `temporary=False` as in scenario S3)
clears the token and schedules a reconnect; non-temporary code 3501 leads to
a terminal internal disconnect. -/
theorem c5_connect_reply_error_witness :
    (Client.handleConnectReplyError c2TraceA "tok" 109 "expired" false).1.2
      = "" ∧
    (Client.handleConnectReplyError c2TraceA "tok" 109 "expired" false).2
      = [Ev.closeTransport,
         Ev.onErrorReply ErrTag.connectReplyError 109 "expired" true,
         Ev.scheduleReconnect] ∧
    connectTokenSource "" true = TokenSource.provider ∧
    (Client.handleConnectReplyError c2TraceA "tok" 101 "unauthorized" false).1.1.state
      = ClientState.disconnected ∧
    (Client.handleConnectReplyError c2TraceA "tok" 101 "unauthorized" false).1.1.needReconnect
      = false ∧
    Ev.scheduleReconnect
      ∉ (Client.handleConnectReplyError c2TraceA "tok" 101 "unauthorized" false).2 := by
  have h109 := c5_connect_reply_error c2TraceA "tok" 109 "expired" false
  have h101 := c5_connect_reply_error c2TraceA "tok" 101 "unauthorized" false
  exact ⟨(h109.1 (by decide)).1, (h109.1 (by decide)).2.1,
         (h109.1 (by decide)).2.2.2,
         (h101.2.2 (by decide) rfl).2.1, (h101.2.2 (by decide) rfl).2.2.1,
         (h101.2.2 (by decide) rfl).2.2.2⟩

/-! ### Claim C10: unsubscribe-command timeout -/

/-- The outcome of awaiting the unsubscribe command's reply future. -/
inductive UnsubOutcome
  | replyOk
  | timeout
  deriving DecidableEq, Repr

/-- Models `Client._unsubscribe` (client.py 655-676) with the awaited outcome made
explicit: a no-op when the channel has no subscription; otherwise the
unsubscribe command is sent, and an `OperationTimeoutError` on the reply
future triggers `_disconnect(UNSUBSCRIBE_ERROR, True)` for the whole
client. -/
def Client.unsubscribeCmd (c : ClientM) (channel : String) (hasSub : Bool)
    (outcome : UnsubOutcome) : ClientM × List Ev :=
  if hasSub = false then (c, [])
  else
    match outcome with
    | UnsubOutcome.replyOk => (c, [Ev.sendUnsubscribeCmd channel])
    | UnsubOutcome.timeout =>
      let res := Client.disconnectInternal c DCode.unsubscribeError
        (Reason.ofCode DCode.unsubscribeError) true
      (res.1, Ev.sendUnsubscribeCmd channel :: res.2)

/-- C10: `Subscription.unsubscribe()` (on a subscription not already
`UNSUBSCRIBED`) sends a server-bound unsubscribe command; if that command
times out, the whole client performs an internal disconnect with the
`UNSUBSCRIBE_ERROR` code and `reconnect=True`: the connection is torn down
(pending commands failed, `on_disconnected` emitted), the client moves to
`CONNECTING`, and a reconnect is scheduled. -/
theorem c10_unsubscribe_timeout_disconnects (c : ClientM) (channel : String)
    (s : SubM) (hc : c.state = ClientState.connected)
    (hs : s.state ≠ SubState.unsubscribed) :
    Ev.sendUnsubscribeCmd s.channel ∈ (Subscription.unsubscribe s).2 ∧
    (Subscription.unsubscribe s).1.state = SubState.unsubscribed ∧
    (Client.unsubscribeCmd c channel true UnsubOutcome.timeout).1
      = (Client.disconnectInternal c DCode.unsubscribeError
          (Reason.ofCode DCode.unsubscribeError) true).1 ∧
    (Client.unsubscribeCmd c channel true UnsubOutcome.timeout).1.state
      = ClientState.connecting ∧
    Ev.scheduleReconnect
      ∈ (Client.unsubscribeCmd c channel true UnsubOutcome.timeout).2 ∧
    Ev.onDisconnected DCode.unsubscribeError (Reason.ofCode DCode.unsubscribeError)
      ∈ (Client.unsubscribeCmd c channel true UnsubOutcome.timeout).2 := by
  have hnd : c.state ≠ ClientState.disconnected := by
    rw [hc]; intro h; cases h
  have hrec := disconnectInternal_reconnecting c DCode.unsubscribeError
    (Reason.ofCode DCode.unsubscribeError) hnd
  have hemit := disconnectInternal_emits c DCode.unsubscribeError
    (Reason.ofCode DCode.unsubscribeError) true hnd
  refine ⟨?_, ?_, rfl, hrec.1, ?_, ?_⟩
  · unfold Subscription.unsubscribe Subscription.moveUnsubscribed
    rw [if_neg hs]
    by_cases hsub : s.state = SubState.subscribed <;>
      simp [hsub]
  · unfold Subscription.unsubscribe Subscription.moveUnsubscribed
    rw [if_neg hs]
    by_cases hsub : s.state = SubState.subscribed <;>
      by_cases hf : s.subFut = SubFut.unresolved <;>
        simp [hsub, hf]
  · exact List.mem_cons_of_mem _ hrec.2
  · exact List.mem_cons_of_mem _ hemit

/-- C10 witness: a `SUBSCRIBED` subscription to "room" and the connected
client of the C2 trace. -/
theorem c10_unsubscribe_timeout_disconnects_witness :
    Ev.sendUnsubscribeCmd "room"
      ∈ (Subscription.unsubscribe c8SubStart).2 ∧
    (Subscription.unsubscribe c8SubStart).1.state = SubState.unsubscribed ∧
    (Client.unsubscribeCmd c2TraceB "room" true UnsubOutcome.timeout).1.state
      = ClientState.connecting ∧
    Ev.scheduleReconnect
      ∈ (Client.unsubscribeCmd c2TraceB "room" true UnsubOutcome.timeout).2 ∧
    Ev.onDisconnected DCode.unsubscribeError (Reason.ofCode DCode.unsubscribeError)
      ∈ (Client.unsubscribeCmd c2TraceB "room" true UnsubOutcome.timeout).2 := by
  have h := c10_unsubscribe_timeout_disconnects c2TraceB "room" c8SubStart
    (by decide) (by decide)
  exact ⟨h.1, h.2.1, h.2.2.2.1, h.2.2.2.2.1, h.2.2.2.2.2⟩

/-! ### Claim C9: one subscription per channel -/

/-- The client's subscription registry `_subs` viewed as an association list
`channel -> (subscription object id, subscription state)`; `nextSub`
allocates object identities. -/
structure SubsReg where
  nextSub : Nat
  subs : List (String × Nat × SubState)
  deriving DecidableEq, Repr

inductive CErr
  | duplicateSubscription (channel : String)
  | cannotRemoveNonUnsubscribed
  | keyError
  deriving DecidableEq, Repr

/-- Models `Client.get_subscription` (client.py 206-211). -/
def SubsReg.getSubscription (r : SubsReg) (channel : String) :
    Option (Nat × SubState) :=
  (r.subs.find? (fun p => p.1 == channel)).map (fun p => p.2)

/-- Models `Client.new_subscription` (client.py 178-204): raises
`DuplicateSubscriptionError` when a subscription for the channel is already
registered; otherwise creates a new subscription object and registers it. -/
def SubsReg.newSubscription (r : SubsReg) (channel : String) :
    Except CErr (SubsReg × Nat) :=
  if (r.getSubscription channel).isSome then
    Except.error (CErr.duplicateSubscription channel)
  else
    Except.ok
      ({ r with
          nextSub := r.nextSub + 1
          subs := (channel, r.nextSub, SubState.unsubscribed) :: r.subs },
       r.nextSub)

/-- Models `Client.remove_subscription` (client.py 213-225): raises
`CentrifugeError` unless the subscription is `UNSUBSCRIBED`; `del` on a
missing key raises `KeyError`; otherwise severs the back-reference and
deletes the entry. -/
def SubsReg.removeSubscription (r : SubsReg) (channel : String)
    (subState : SubState) : Except CErr SubsReg :=
  if subState ≠ SubState.unsubscribed then
    Except.error CErr.cannotRemoveNonUnsubscribed
  else if (r.getSubscription channel).isSome then
    Except.ok { r with subs := r.subs.filter (fun p => p.1 != channel) }
  else Except.error CErr.keyError

/-- Models `Client.resubscribe` (client.py 651-653): `self._subs[sub.channel] = sub`
— a dict assignment for the subscription's own channel. -/
def SubsReg.resubscribeReg (r : SubsReg) (channel : String) (subId : Nat)
    (st : SubState) : SubsReg :=
  { r with
    subs := (channel, subId, st) :: r.subs.filter (fun p => p.1 != channel) }

/-- All the operations of the code that write `_subs`. -/
inductive SOp
  | newSub (channel : String)
  | removeSub (channel : String) (st : SubState)
  | resub (channel : String) (subId : Nat) (st : SubState)
  deriving DecidableEq, Repr

def SubsReg.applySOp (r : SubsReg) : SOp → SubsReg
  | SOp.newSub ch =>
    match r.newSubscription ch with
    | Except.ok rr => rr.1
    | Except.error _ => r
  | SOp.removeSub ch st =>
    match r.removeSubscription ch st with
    | Except.ok r' => r'
    | Except.error _ => r
  | SOp.resub ch id st => r.resubscribeReg ch id st

def SubsReg.runSOps (r : SubsReg) (ops : List SOp) : SubsReg :=
  ops.foldl SubsReg.applySOp r

def subsRegInit : SubsReg := { nextSub := 0, subs := [] }

/-- At most one registry entry per channel. -/
def SubsWF (r : SubsReg) : Prop := (r.subs.map (fun p => p.1)).Nodup

theorem find?_isSome_cons {α : Type} (p : α → Bool) (a : α) (l : List α)
    (h : (l.find? p).isSome) : ((a :: l).find? p).isSome := by
  by_cases hpa : p a
  · rw [List.find?_cons_of_pos _ hpa]; rfl
  · rw [List.find?_cons_of_neg _ (by simpa using hpa)]; exact h

theorem getSubscription_isSome_iff (r : SubsReg) (ch : String) :
    (r.getSubscription ch).isSome ↔ ∃ q ∈ r.subs, q.1 = ch := by
  constructor
  · intro h
    cases hfind : r.subs.find? (fun p => p.1 == ch) with
    | none =>
      unfold SubsReg.getSubscription at h
      rw [hfind] at h
      simp at h
    | some q =>
      exact ⟨q, List.mem_of_find?_eq_some hfind,
        by simpa using List.find?_some hfind⟩
  · rintro ⟨q, hq, hq1⟩
    unfold SubsReg.getSubscription
    have hs : (r.subs.find? (fun p => p.1 == ch)).isSome :=
      List.find?_isSome.2 ⟨q, hq, by simpa using hq1⟩
    cases hfind : r.subs.find? (fun p => p.1 == ch) with
    | none => rw [hfind] at hs; simp at hs
    | some p => rfl

theorem subsWF_applySOp {r : SubsReg} (hwf : SubsWF r) (op : SOp) :
    SubsWF (r.applySOp op) := by
  cases op with
  | newSub ch =>
    by_cases hp : (r.getSubscription ch).isSome
    · simp [SubsReg.applySOp, SubsReg.newSubscription, hp]
      exact hwf
    · simp only [SubsReg.applySOp, SubsReg.newSubscription, hp, Bool.false_eq_true,
        if_neg, ite_false]
      refine List.Nodup.cons ?_ hwf
      intro hmem
      obtain ⟨q, hq, hq1⟩ := List.mem_map.1 hmem
      exact hp ((getSubscription_isSome_iff r ch).2 ⟨q, hq, hq1⟩)
  | removeSub ch st =>
    by_cases hst : st ≠ SubState.unsubscribed
    · simp [SubsReg.applySOp, SubsReg.removeSubscription, hst]
      exact hwf
    · by_cases hp : (r.getSubscription ch).isSome
      · simp only [SubsReg.applySOp, SubsReg.removeSubscription, hst, hp,
          ite_false, ite_true]
        exact hwf.sublist (List.Sublist.map _ (List.filter_sublist _))
      · simp [SubsReg.applySOp, SubsReg.removeSubscription, hst, hp]
        exact hwf
  | resub ch id st =>
    simp only [SubsReg.applySOp, SubsReg.resubscribeReg]
    unfold SubsWF
    simp only [List.map_cons]
    refine List.Nodup.cons ?_
      (hwf.sublist (List.Sublist.map _ (List.filter_sublist _)))
    intro hmem
    obtain ⟨q, hq, hq1⟩ := List.mem_map.1 hmem
    exact absurd hq1 (by simpa using (List.mem_filter.1 hq).2)

theorem subsWF_runSOps {r : SubsReg} (hwf : SubsWF r) (ops : List SOp) :
    SubsWF (r.runSOps ops) := by
  induction ops generalizing r with
  | nil => exact hwf
  | cons op ops ih => exact ih (subsWF_applySOp hwf op)

/-- C9: `new_subscription(c)` raises `DuplicateSubscriptionError` whenever a
subscription for `c` is already registered; removal requires `UNSUBSCRIBED`
state; neither `new_subscription` nor `resubscribe` ever deletes another
channel's entry (removal is the only deleting operation); and every registry
reachable from the fresh client holds at most one entry per channel. -/
theorem c9_unique_subscription_per_channel (r : SubsReg)
    (ch chN ch' : String) (st : SubState) (id : Nat)
    (hdup : (r.getSubscription ch).isSome) (hst : st ≠ SubState.unsubscribed)
    (hch' : (r.getSubscription ch').isSome) (ops : List SOp) :
    r.newSubscription ch = Except.error (CErr.duplicateSubscription ch) ∧
    r.removeSubscription ch st = Except.error CErr.cannotRemoveNonUnsubscribed ∧
    ((r.applySOp (SOp.newSub chN)).getSubscription ch').isSome ∧
    ((r.applySOp (SOp.resub chN id st)).getSubscription ch').isSome ∧
    SubsWF (subsRegInit.runSOps ops) := by
  refine ⟨?_, ?_, ?_, ?_, ?_⟩
  · simp [SubsReg.newSubscription, hdup]
  · simp [SubsReg.removeSubscription, hst]
  · by_cases hp : (r.getSubscription chN).isSome
    · simpa [SubsReg.applySOp, SubsReg.newSubscription, hp] using hch'
    · simp only [SubsReg.applySOp, SubsReg.newSubscription, hp,
        Bool.false_eq_true, ite_false]
      obtain ⟨q, hq, hq1⟩ := (getSubscription_isSome_iff r ch').1 hch'
      apply (getSubscription_isSome_iff _ ch').2
      exact ⟨q, List.mem_cons_of_mem _ hq, hq1⟩
  · obtain ⟨q, hq, hq1⟩ := (getSubscription_isSome_iff r ch').1 hch'
    apply (getSubscription_isSome_iff _ ch').2
    by_cases hcc : ch' = chN
    · exact ⟨(chN, id, st), by simp [SubsReg.applySOp, SubsReg.resubscribeReg],
        hcc.symm⟩
    · refine ⟨q, ?_, hq1⟩
      simp only [SubsReg.applySOp, SubsReg.resubscribeReg]
      apply List.mem_cons_of_mem
      apply List.mem_filter.2
      refine ⟨hq, ?_⟩
      simp [hq1, hcc]
  · exact subsWF_runSOps (by simp [SubsWF, subsRegInit]) ops

/-- C9 witness: a registry holding "room"; duplicate registration fails,
removal of a subscribed subscription fails, inserts for "news" keep "room"
registered, and a concrete op sequence keeps channel keys unique. -/
theorem c9_unique_subscription_per_channel_witness :
    ({ nextSub := 2, subs := [("room", 1, SubState.subscribed)] } :
        SubsReg).newSubscription "room"
      = Except.error (CErr.duplicateSubscription "room") ∧
    ({ nextSub := 2, subs := [("room", 1, SubState.subscribed)] } :
        SubsReg).removeSubscription "room" SubState.subscribed
      = Except.error CErr.cannotRemoveNonUnsubscribed ∧
    ((({ nextSub := 2, subs := [("room", 1, SubState.subscribed)] } :
        SubsReg).applySOp (SOp.newSub "news")).getSubscription "room").isSome ∧
    ((({ nextSub := 2, subs := [("room", 1, SubState.subscribed)] } :
        SubsReg).applySOp
          (SOp.resub "news" 3 SubState.subscribed)).getSubscription "room").isSome ∧
    SubsWF (subsRegInit.runSOps
      [SOp.newSub "room", SOp.newSub "room", SOp.newSub "extra",
       SOp.removeSub "extra" SubState.unsubscribed]) := by
  have h := c9_unique_subscription_per_channel
    { nextSub := 2, subs := [("room", 1, SubState.subscribed)] }
    "room" "news" "room" SubState.subscribed 3
    (by decide) (by decide) (by decide)
    [SOp.newSub "room", SOp.newSub "room", SOp.newSub "extra",
     SOp.removeSub "extra" SubState.unsubscribed]
  exact ⟨h.1, h.2.1, h.2.2.1, h.2.2.2.1, h.2.2.2.2⟩
